import Mathlib

/-!
Shallow embedding of the order/payment core of the hamro-pasal backend.

Sources embedded here:
* `src/controllers/orderController.js` — input validation, pricing
  (`computeOrderTotals`), order creation with the conditional stock
  decrement inside `prisma.$transaction`, `updateOrderStatus`,
  `cancelMyOrder`.
* the payment controller (`createPayment`, `refundPayment`; two variant
  files with the same refund logic, the second adding a canceled-order
  guard to `createPayment`).
* `src/prisma/migrations/20251204083843_fix_shipping_relation/migration.sql`
  — the declared `OrderStatus` and `PaymentStatus` enum members.

Modelling conventions:
* `Prisma.Decimal` (decimal.js) values are modelled in `ℚ`.  All decimal
  operations the code performs (add, sub, mul) are exact in decimal.js for
  the magnitudes involved, and a JS number literal such as `0.15` is
  converted by decimal.js through its shortest decimal string, so
  `TAX_RATE` is exactly `15/100`.
* A JS number obtained from `Number(item.quantity)` is modelled by `JsNum`:
  either a finite value (as the exact rational the decimal conversion
  yields) or one of the non-finite values that `Number.isFinite` rejects.
* The integer `stock` column is modelled with its numeric value in `ℚ`;
  every invariant proved over `ℚ` holds a fortiori for integer stocks.
* Absent (`undefined`/`null`) optional fields are `Option.none`; JS string
  truthiness (`""` is falsy) is `truthy`.  A missing `productId` on an item
  is modelled as `""` (both are falsy and fail the same check).
* A `prisma.$transaction` callback that throws discards all its writes, so
  a database operation is `DB → Except AppError (DB × α)`: on `.error` the
  observable database is the input one (see the `run…` helpers).
-/

namespace HamroPasal

/-- `AppError(message, statusCode)` from `src/utils/AppError.js`
(shape recovered from its unit test: `message` and `statusCode` fields). -/
structure AppError where
  message : String
  statusCode : Nat
deriving DecidableEq

/-- A JavaScript number as produced by the `Number(...)` coercion the
controller applies to `item.quantity`: a finite exact value or one of the
values `Number.isFinite` rejects. -/
inductive JsNum where
  | num (q : ℚ)
  | nan
  | inf
  | negInf
deriving DecidableEq

/-- `Number.isFinite(x)`. -/
def JsNum.isFinite : JsNum → Bool
  | .num _ => true
  | _ => false

/-- JS truthiness of an optional string (`undefined`, `null` and `""` are
falsy). -/
def truthy : Option String → Bool
  | none => false
  | some s => s != ""

/-- JS `a || b` on optional strings: `b` when `a` is falsy. -/
def firstTruthy (a b : Option String) : Option String :=
  if truthy a then a else b

/-- A `Product` row (fields the order controller selects). -/
structure Product where
  id : String
  name : String
  image : String
  price : ℚ
  stock : ℚ
  isActive : Bool
deriving DecidableEq

/-- An `Order` row (fields written by `createOrder`). -/
structure Order where
  id : String
  userId : String
  subtotal : ℚ
  tax : ℚ
  discount : ℚ
  shippingFee : ℚ
  total : ℚ
  status : String
deriving DecidableEq

/-- An `OrderItem` row (the immutable snapshot written by the nested
create in `createOrder`). -/
structure OrderItem where
  orderId : String
  productId : String
  quantity : ℚ
  unitPrice : ℚ
  discount : ℚ
  tax : ℚ
  subtotal : ℚ
  productName : String
  productImage : String
  status : String
deriving DecidableEq

/-- A `Payment` row (1:1 with `Order` via unique `orderId`). -/
structure Payment where
  orderId : String
  amount : ℚ
  provider : String
  transactionId : Option String
  status : String
deriving DecidableEq

/-- A `ShippingAddress` row (1:1 with `Order` via unique `orderId`). -/
structure ShippingAddress where
  orderId : String
  fullName : String
  phone : String
  address : String
  city : String
  postalCode : String
  country : String
deriving DecidableEq

/-- The relational store the controllers touch. -/
structure DB where
  products : List Product
  orders : List Order
  orderItems : List OrderItem
  payments : List Payment
  addresses : List ShippingAddress
deriving DecidableEq

/-- The resolved `req.user` set by the auth middleware. -/
structure UserCtx where
  id : String
  isAdmin : Bool
deriving DecidableEq

/-- `!!req?.user?.isAdmin`. -/
def isAdminOf : Option UserCtx → Bool
  | some u => u.isAdmin
  | none => false

/-- One entry of `body.items`. -/
structure RequestItem where
  productId : String
  quantity : JsNum
deriving DecidableEq

/-- The optional `body.shippingAddress` as received (fields may be
absent). -/
structure AddressInput where
  fullName : Option String
  phone : Option String
  address : Option String
  city : Option String
  postalCode : Option String
  country : Option String
deriving DecidableEq

/-- The `createOrder` request body.  A missing or non-array `items` field
behaves as the empty list (both fail the same `at least one item` check);
`paymentMethod` of a non-string type is not representable here (its
`typeof` check can therefore not fail in the model, and no claim concerns
it). -/
structure CreateOrderBody where
  userId : Option String
  items : List RequestItem
  shippingAddress : Option AddressInput
  paymentMethod : Option String
  paymentProvider : Option String
deriving DecidableEq

/-- Primary-key lookups: `findUnique` on the unique column. -/
def findProduct (db : DB) (pid : String) : Option Product :=
  db.products.find? (fun p => p.id == pid)

def findOrder (db : DB) (oid : String) : Option Order :=
  db.orders.find? (fun o => o.id == oid)

def findPayment (db : DB) (oid : String) : Option Payment :=
  db.payments.find? (fun p => p.orderId == oid)

/-- `include: { orderItems: true }` for one order. -/
def orderItemsOf (db : DB) (oid : String) : List OrderItem :=
  db.orderItems.filter (fun it => it.orderId == oid)

/-! ## Input validation (`validateCreateOrderInput`) -/

/-- The per-item loop of `validateCreateOrderInput`: each item needs a
truthy `productId` and a finite positive `Number(item.quantity)`. -/
def validateItems : List RequestItem → Except AppError Unit
  | [] => .ok ()
  | it :: rest =>
    if it.productId == "" then
      .error ⟨"Each item must include productId", 400⟩
    else
      match it.quantity with
      | .num q =>
        if q ≤ 0 then .error ⟨"Each item must have a positive quantity", 400⟩
        else validateItems rest
      | _ => .error ⟨"Each item must have a positive quantity", 400⟩

/-- The required-field loop over `body.shippingAddress`. -/
def validateAddress (a : AddressInput) : Except AppError Unit :=
  if truthy a.fullName = false then
    .error ⟨"Missing shipping address field: fullName", 400⟩
  else if truthy a.phone = false then
    .error ⟨"Missing shipping address field: phone", 400⟩
  else if truthy a.address = false then
    .error ⟨"Missing shipping address field: address", 400⟩
  else if truthy a.city = false then
    .error ⟨"Missing shipping address field: city", 400⟩
  else if truthy a.postalCode = false then
    .error ⟨"Missing shipping address field: postalCode", 400⟩
  else if truthy a.country = false then
    .error ⟨"Missing shipping address field: country", 400⟩
  else .ok ()

/-- `validateCreateOrderInput(body)` from the order controller. -/
def validateCreateOrderInput (body : CreateOrderBody) : Except AppError Unit :=
  if body.items.isEmpty then
    .error ⟨"Order must contain at least one item", 400⟩
  else
    match validateItems body.items with
    | .error e => .error e
    | .ok _ =>
      match body.shippingAddress with
      | some a => validateAddress a
      | none => .ok ()

/-! ## Pricing (`computeOrderTotals`) -/

def TAX_RATE : ℚ := 15 / 100

def BASE_SHIPPING_FEE : ℚ := 0

def DEFAULT_DISCOUNT : ℚ := 0

/-- One entry of the normalized `orderItemsData` built by
`computeOrderTotals`. -/
structure OrderItemData where
  productId : String
  quantity : ℚ
  unitPrice : ℚ
  discount : ℚ
  tax : ℚ
  subtotal : ℚ
  productName : String
  productImage : String
  status : String
deriving DecidableEq

/-- The value returned by `computeOrderTotals`. -/
structure Totals where
  subtotal : ℚ
  tax : ℚ
  discount : ℚ
  shippingFee : ℚ
  total : ℚ
  orderItemsData : List OrderItemData
deriving DecidableEq

/-- The `items.map` body of `computeOrderTotals`, with the running
`subtotal` accumulator: look the product up in the batched read, reject a
missing or inactive product, a non-finite or non-positive quantity, and a
quantity above current stock, and otherwise snapshot the line.  The
batched `findMany` over the requested ids followed by `productMap.get`
amounts to the primary-key lookup `findProduct` for each requested id. -/
def buildLines (db : DB) : List RequestItem → ℚ → Except AppError (List OrderItemData × ℚ)
  | [], acc => .ok ([], acc)
  | it :: rest, acc =>
    match findProduct db it.productId with
    | none => .error ⟨"Product not found: " ++ it.productId, 404⟩
    | some product =>
      if product.isActive = false then
        .error ⟨"Product inactive: " ++ product.name, 400⟩
      else
        match it.quantity with
        | .num qty =>
          if qty ≤ 0 then .error ⟨"Invalid quantity", 400⟩
          else if product.stock < qty then
            .error ⟨"Not enough stock for product: " ++ product.name, 400⟩
          else
            match buildLines db rest (acc + product.price * qty) with
            | .error e => .error e
            | .ok (lines, s) =>
              .ok (⟨it.productId, qty, product.price, DEFAULT_DISCOUNT, 0,
                    product.price * qty, product.name, product.image,
                    "PENDING"⟩ :: lines, s)
        | _ => .error ⟨"Invalid quantity", 400⟩

/-- `computeOrderTotals(items)`: price the lines against the catalog and
aggregate `subtotal`, `tax = subtotal * TAX_RATE`,
`total = subtotal + tax + shippingFee - discount`. -/
def computeOrderTotals (db : DB) (items : List RequestItem) : Except AppError Totals :=
  match buildLines db items 0 with
  | .error e => .error e
  | .ok (data, subtotal) =>
    let tax := subtotal * TAX_RATE
    let shippingFee := BASE_SHIPPING_FEE
    let discount := DEFAULT_DISCOUNT
    let total := subtotal + tax + shippingFee - discount
    .ok ⟨subtotal, tax, discount, shippingFee, total, data⟩

/-! ## Stock ledger -/

/-- The `where` filter of the conditional decrement
`tx.product.updateMany({ where: { id, stock: { gte: quantity } }, ... })`. -/
def reserveCond (pid : String) (qty : ℚ) (p : Product) : Bool :=
  p.id == pid && decide (qty ≤ p.stock)

/-- The conditional decrement itself: every row matching the filter is
decremented, and the updated-row count is returned, in one atomic
operation. -/
def reserveStock (db : DB) (pid : String) (qty : ℚ) : DB × Nat :=
  ({ db with
      products := db.products.map (fun p =>
        if reserveCond pid qty p then { p with stock := p.stock - qty } else p) },
   (db.products.filter (reserveCond pid qty)).length)

/-- The error thrown when the conditional decrement matched no row. -/
def conflictError : AppError :=
  ⟨"Stock changed while placing order. Please try again.", 409⟩

/-- The per-line reservation loop at the top of the `createOrder`
transaction: `updated.count === 0` aborts the whole unit with the 409
conflict error. -/
def reserveAll (db : DB) : List OrderItemData → Except AppError DB
  | [] => .ok db
  | it :: rest =>
    let r := reserveStock db it.productId it.quantity
    if r.2 = 0 then .error conflictError else reserveAll r.1 rest

/-! ## Order creation (`createOrder`) -/

/-- The nested `orderItems.create` payload: field-for-field copy of a
normalized line, attached to the new order. -/
def mkOrderItem (oid : String) (i : OrderItemData) : OrderItem :=
  ⟨oid, i.productId, i.quantity, i.unitPrice, i.discount, i.tax, i.subtotal,
   i.productName, i.productImage, i.status⟩

/-- The `shippingAddress.create` payload (fields were validated truthy, so
the defaults are never taken). -/
def mkAddressRow (oid : String) (a : AddressInput) : ShippingAddress :=
  ⟨oid, a.fullName.getD "", a.phone.getD "", a.address.getD "",
   a.city.getD "", a.postalCode.getD "", a.country.getD ""⟩

/-- `paymentProvider || paymentMethod || "UNKNOWN"`. -/
def providerOf (provider method : Option String) : String :=
  (firstTruthy provider (firstTruthy method (some "UNKNOWN"))).getD "UNKNOWN"

/-- The `prisma.$transaction` callback of `createOrder`: reserve stock for
every line, then create the `Order` row with its nested `OrderItem` rows,
the optional `ShippingAddress` row and the optional `PENDING` `Payment`
row.  `oid` is the freshly generated primary key of the new order; the
closing `findUnique` read-back returns that newly created row. -/
def createOrderTx (db : DB) (userId : String) (totals : Totals)
    (shippingAddress : Option AddressInput)
    (paymentMethod paymentProvider : Option String)
    (oid : String) : Except AppError (DB × Order) :=
  match reserveAll db totals.orderItemsData with
  | .error e => .error e
  | .ok db1 =>
    let createdOrder : Order :=
      ⟨oid, userId, totals.subtotal, totals.tax, totals.discount,
       totals.shippingFee, totals.total, "PENDING"⟩
    let db2 : DB := { db1 with
      orders := db1.orders ++ [createdOrder],
      orderItems := db1.orderItems ++ totals.orderItemsData.map (mkOrderItem oid) }
    let db3 : DB :=
      match shippingAddress with
      | some a => { db2 with addresses := db2.addresses ++ [mkAddressRow oid a] }
      | none => db2
    let db4 : DB :=
      if truthy paymentMethod || truthy paymentProvider then
        { db3 with payments := db3.payments ++
            [⟨oid, totals.total, providerOf paymentProvider paymentMethod,
              none, "PENDING"⟩] }
      else db3
    .ok (db4, createdOrder)

/-- `createOrder`: resolve the caller (`req?.user?.id || req.body.userId`),
validate the body, price the items, then run the transaction. -/
def createOrder (db : DB) (reqUser : Option UserCtx) (body : CreateOrderBody)
    (oid : String) : Except AppError (DB × Order) :=
  let userId := firstTruthy (reqUser.map (fun u => u.id)) body.userId
  if truthy userId = false then .error ⟨"Unauthorized", 401⟩
  else
    match validateCreateOrderInput body with
    | .error e => .error e
    | .ok _ =>
      match computeOrderTotals db body.items with
      | .error e => .error e
      | .ok totals =>
        createOrderTx db (userId.getD "") totals body.shippingAddress
          body.paymentMethod body.paymentProvider oid

/-- The database a caller observes after `createOrder`: a throwing
transaction callback discards every write. -/
def runCreateOrder (db : DB) (reqUser : Option UserCtx) (body : CreateOrderBody)
    (oid : String) : DB :=
  match createOrder db reqUser body oid with
  | .ok r => r.1
  | .error _ => db

/-! ## Self-service cancellation (`cancelMyOrder`) -/

/-- Prisma error P2025 (`update` found no row to update); it is not an
`AppError`, so the error middleware reports it as a 500. -/
def recordNotFoundError : AppError :=
  ⟨"Record to update not found", 500⟩

/-- `tx.product.update({ where: { id }, data: { stock: { increment } } })`:
unconditional increment that throws (P2025) when the row is missing. -/
def incrementStock (db : DB) (pid : String) (qty : ℚ) : Option DB :=
  match findProduct db pid with
  | none => none
  | some _ =>
    some { db with
      products := db.products.map (fun p =>
        if p.id == pid then { p with stock := p.stock + qty } else p) }

/-- The stock-restoration loop of the `cancelMyOrder` transaction. -/
def releaseAll (db : DB) : List OrderItem → Option DB
  | [] => some db
  | it :: rest =>
    match incrementStock db it.productId it.quantity with
    | none => none
    | some db1 => releaseAll db1 rest

/-- `order.update({ where: { id }, data: { status } })` applied to the
orders table. -/
def setOrderRowStatus (orders : List Order) (oid status : String) : List Order :=
  orders.map (fun o => if o.id == oid then { o with status := status } else o)

/-- `cancelMyOrder`: the owner may cancel an order exactly while it is
`PENDING`; the transaction re-increments each item quantity onto its
product and flips the status to `CANCELED`. -/
def cancelMyOrder (db : DB) (reqUser : Option UserCtx) (orderId : String) :
    Except AppError (DB × Order) :=
  match reqUser with
  | none => .error ⟨"Unauthorized", 401⟩
  | some u =>
    if u.id == "" then .error ⟨"Unauthorized", 401⟩
    else
      match findOrder db orderId with
      | none => .error ⟨"Order not found", 404⟩
      | some existing =>
        if (existing.userId == u.id) = false then .error ⟨"Forbidden", 403⟩
        else if (existing.status == "PENDING") = false then
          .error ⟨"Order cannot be canceled at this stage", 400⟩
        else
          match releaseAll db (orderItemsOf db orderId) with
          | none => .error recordNotFoundError
          | some db1 =>
            .ok ({ db1 with orders := setOrderRowStatus db1.orders orderId "CANCELED" },
                 { existing with status := "CANCELED" })

/-- Observable database after `cancelMyOrder` (rollback on error). -/
def runCancelMyOrder (db : DB) (reqUser : Option UserCtx) (orderId : String) : DB :=
  match cancelMyOrder db reqUser orderId with
  | .ok r => r.1
  | .error _ => db

/-! ## Administrative status update (`updateOrderStatus`) -/

/-- The controller's `allowedStatuses` list, verbatim. -/
def allowedStatuses : List String :=
  ["PENDING", "PAID", "SHIPPED", "DELIVERED", "CANCELED"]

/-- The members of the `OrderStatus` enum as declared by migration
`20251204083843_fix_shipping_relation` (`CREATE TYPE "OrderStatus_new" AS
ENUM ('PENDING', 'PROCESSING', 'SHIPPED', 'DELIVERED', 'CANCELED')`; the
same migration removes the old `PAID` member). -/
def orderStatusMembers : List String :=
  ["PENDING", "PROCESSING", "SHIPPED", "DELIVERED", "CANCELED"]

/-- The datastore rejects a write of a value outside the declared
`OrderStatus` enum; like P2025 this surfaces as a 500, not an
`AppError`. -/
def invalidEnumError : AppError :=
  ⟨"Invalid value for enum OrderStatus", 500⟩

/-- `updateOrderStatus`: admin-only; the target status is screened against
the controller's `allowedStatuses` list, and any write of a value outside
the declared enum members is rejected by the datastore. -/
def updateOrderStatus (db : DB) (reqUser : Option UserCtx)
    (orderId status : String) : Except AppError (DB × Order) :=
  if isAdminOf reqUser = false then .error ⟨"Forbidden", 403⟩
  else if allowedStatuses.contains status = false then
    .error ⟨"Invalid order status", 400⟩
  else if orderStatusMembers.contains status = false then
    .error invalidEnumError
  else
    match findOrder db orderId with
    | none => .error recordNotFoundError
    | some o =>
      .ok ({ db with orders := setOrderRowStatus db.orders orderId status },
           { o with status := status })

/-! ## Payments (`createPayment`, `refundPayment`) -/

/-- `createPayment` (first payment-controller variant): owner or admin may
attach at most one payment to an order; a second attempt is rejected
before any write. -/
def createPayment (db : DB) (reqUser : Option UserCtx) (orderId : String)
    (provider method transactionId : Option String) :
    Except AppError (DB × Payment) :=
  match reqUser with
  | none => .error ⟨"Unauthorized", 401⟩
  | some u =>
    if u.id == "" then .error ⟨"Unauthorized", 401⟩
    else
      match findOrder db orderId with
      | none => .error ⟨"Order not found", 404⟩
      | some order =>
        if (order.userId == u.id) = false && u.isAdmin = false then
          .error ⟨"Forbidden", 403⟩
        else
          match findPayment db orderId with
          | some _ => .error ⟨"Payment already exists", 400⟩
          | none =>
            let payment : Payment :=
              ⟨orderId, order.total, providerOf provider method,
               if truthy transactionId then transactionId else none, "PENDING"⟩
            .ok ({ db with payments := db.payments ++ [payment] }, payment)

/-- `createPayment` (second payment-controller variant): identical except
that a `CANCELED` order is rejected before the duplicate check. -/
def createPaymentV2 (db : DB) (reqUser : Option UserCtx) (orderId : String)
    (provider method transactionId : Option String) :
    Except AppError (DB × Payment) :=
  match reqUser with
  | none => .error ⟨"Unauthorized", 401⟩
  | some u =>
    if u.id == "" then .error ⟨"Unauthorized", 401⟩
    else
      match findOrder db orderId with
      | none => .error ⟨"Order not found", 404⟩
      | some order =>
        if (order.userId == u.id) = false && u.isAdmin = false then
          .error ⟨"Forbidden", 403⟩
        else if order.status == "CANCELED" then
          .error ⟨"Cannot create payment for canceled order", 400⟩
        else
          match findPayment db orderId with
          | some _ => .error ⟨"Payment already exists", 400⟩
          | none =>
            let payment : Payment :=
              ⟨orderId, order.total, providerOf provider method,
               if truthy transactionId then transactionId else none, "PENDING"⟩
            .ok ({ db with payments := db.payments ++ [payment] }, payment)

/-- Observable database after `createPayment` (errors write nothing). -/
def runCreatePayment (db : DB) (reqUser : Option UserCtx) (orderId : String)
    (provider method transactionId : Option String) : DB :=
  match createPayment db reqUser orderId provider method transactionId with
  | .ok r => r.1
  | .error _ => db

/-- Observable database after `createPaymentV2` (errors write nothing). -/
def runCreatePaymentV2 (db : DB) (reqUser : Option UserCtx) (orderId : String)
    (provider method transactionId : Option String) : DB :=
  match createPaymentV2 db reqUser orderId provider method transactionId with
  | .ok r => r.1
  | .error _ => db

/-- `refundPayment` (identical logic in both payment-controller variants):
admin-only; only a `PAID` payment may move to `REFUNDED`, and the order
row is not touched. -/
def refundPayment (db : DB) (reqUser : Option UserCtx) (orderId : String) :
    Except AppError (DB × Payment) :=
  if isAdminOf reqUser = false then .error ⟨"Forbidden", 403⟩
  else
    match findPayment db orderId with
    | none => .error ⟨"Payment not found", 404⟩
    | some payment =>
      if (payment.status == "PAID") = false then
        .error ⟨"Only paid payments can be refunded", 400⟩
      else
        .ok ({ db with
                payments := db.payments.map (fun p =>
                  if p.orderId == orderId then { p with status := "REFUNDED" } else p) },
             { payment with status := "REFUNDED" })

/-- Observable database after `refundPayment` (errors write nothing). -/
def runRefundPayment (db : DB) (reqUser : Option UserCtx) (orderId : String) : DB :=
  match refundPayment db reqUser orderId with
  | .ok r => r.1
  | .error _ => db

/-! ## Invariant vocabulary -/

/-- Product primary keys are unique (database invariant). -/
def productIdsNodup (db : DB) : Prop :=
  (db.products.map (fun p => p.id)).Nodup

/-- Every product has a non-negative stock count. -/
def stocksNonneg (db : DB) : Prop :=
  ∀ p ∈ db.products, 0 ≤ p.stock

/-- Total quantity a normalized line list orders for one product
(duplicate lines add up). -/
def orderedQty (data : List OrderItemData) (pid : String) : ℚ :=
  ((data.filter (fun i => i.productId == pid)).map (fun i => i.quantity)).sum

/-- Total quantity a set of order items holds for one product. -/
def itemsQty (items : List OrderItem) (pid : String) : ℚ :=
  ((items.filter (fun i => i.productId == pid)).map (fun i => i.quantity)).sum

/-- A request line that passes every per-line pricing check. -/
def lineFine (db : DB) (it : RequestItem) : Prop :=
  ∃ p q, findProduct db it.productId = some p ∧ p.isActive = true ∧
    it.quantity = .num q ∧ 0 < q ∧ q ≤ p.stock

/-! ## Concrete fixtures for witnesses and counterexamples -/

/-- Catalog with one active product: price 10.00, stock 10 (the spec's
concrete scenario A). -/
def dbOne : DB :=
  ⟨[⟨"p1", "Product 1", "p1.jpg", 10, 10, true⟩], [], [], [], []⟩

/-- An order of quantity 2 against `dbOne`, placed by the authenticated
user. -/
def bodyTwo : CreateOrderBody :=
  ⟨none, [⟨"p1", .num 2⟩], none, none, none⟩

/-- The order row scenario A creates: subtotal 20.00, tax 3.00,
total 23.00. -/
def orderA : Order := ⟨"o1", "u1", 20, 3, 0, 0, 23, "PENDING"⟩

/-- `dbOne` after scenario A commits: stock 8, one order, one item. -/
def dbOneAfter : DB :=
  ⟨[⟨"p1", "Product 1", "p1.jpg", 10, 8, true⟩], [orderA],
   [⟨"o1", "p1", 2, 10, 0, 0, 20, "Product 1", "p1.jpg", "PENDING"⟩], [], []⟩

/-- A body carrying `userId` only in `req.body` (no authenticated user). -/
def bodyGuest : CreateOrderBody :=
  ⟨some "u1", [⟨"p1", .num 1⟩], none, none, none⟩

/-- The non-integral quantity 5/2, built so that its denominator is
definitionally 2. -/
def qHalf5 : ℚ := Rat.mk' 5 2 (by norm_num) (by norm_num)

/-- A body requesting the fractional quantity 5/2. -/
def bodyFrac : CreateOrderBody :=
  ⟨none, [⟨"p1", .num qHalf5⟩], none, none, none⟩

/-- Catalog with a single-digit stock (5) and a digit-free product name,
for the insufficient-stock message check. -/
def dbWidget : DB :=
  ⟨[⟨"p1", "Widget", "w.jpg", 10, 5, true⟩], [], [], [], []⟩

/-- Catalog for the duplicate-line scenario: stock 3. -/
def dbThree : DB :=
  ⟨[⟨"p1", "Product 1", "p1.jpg", 10, 3, true⟩], [], [], [], []⟩

/-- Two lines for the same product, each of quantity 2 (each passes the
pricing check against stock 3; together they exceed it). -/
def bodyDup : CreateOrderBody :=
  ⟨none, [⟨"p1", .num 2⟩, ⟨"p1", .num 2⟩], none, none, none⟩

/-- The totals `computeOrderTotals` yields for `bodyDup` over `dbThree`. -/
def totalsDup : Totals :=
  ⟨40, 6, 0, 0, 46,
   [⟨"p1", 2, 10, 0, 0, 20, "Product 1", "p1.jpg", "PENDING"⟩,
    ⟨"p1", 2, 10, 0, 0, 20, "Product 1", "p1.jpg", "PENDING"⟩]⟩

/-- A pending order of user `u1` with one item of quantity 2, the stock
already reserved (8 of 10 left): the state right after scenario A, ready
for cancellation (scenario C). -/
def dbPending : DB := dbOneAfter

/-- State for the administrative status update: one pending order. -/
def dbStatus : DB :=
  ⟨[], [⟨"o1", "u1", 20, 3, 0, 0, 23, "PENDING"⟩], [], [], []⟩

/-- State with a `PAID` payment attached to an order. -/
def dbPaid : DB :=
  ⟨[], [⟨"o1", "u1", 20, 3, 0, 0, 23, "PROCESSING"⟩], [],
   [⟨"o1", 23, "STRIPE", some "tx-1", "PAID"⟩], []⟩

/-- State with a `PENDING` payment already attached to an order. -/
def dbHasPayment : DB :=
  ⟨[], [⟨"o1", "u1", 20, 3, 0, 0, 23, "PENDING"⟩], [],
   [⟨"o1", 23, "STRIPE", none, "PENDING"⟩], []⟩

/-- The order's owner. -/
def userOwner : UserCtx := ⟨"u1", false⟩

/-- An administrator. -/
def userAdmin : UserCtx := ⟨"a1", true⟩

/-- The order row an unauthenticated request with `body.userId = "u1"`
creates (quantity 1: subtotal 10, tax 1.50, total 11.50). -/
def orderGuest : Order := ⟨"o1", "u1", 10, 3/2, 0, 0, 23/2, "PENDING"⟩

/-- `dbOne` after the guest order commits. -/
def dbGuestAfter : DB :=
  ⟨[⟨"p1", "Product 1", "p1.jpg", 10, 9, true⟩], [orderGuest],
   [⟨"o1", "p1", 1, 10, 0, 0, 10, "Product 1", "p1.jpg", "PENDING"⟩], [], []⟩

/-- A body whose single item requests quantity 0 (the spec's concrete
scenario D). -/
def bodyZero : CreateOrderBody :=
  ⟨none, [⟨"p1", .num 0⟩], none, none, none⟩

/-- The canceled order row of scenario C. -/
def orderCanceled : Order := ⟨"o1", "u1", 20, 3, 0, 0, 23, "CANCELED"⟩

/-- `dbPending` after the owner cancels: stock restored to 10, status
`CANCELED`, items and payments untouched. -/
def dbCanceled : DB :=
  ⟨[⟨"p1", "Product 1", "p1.jpg", 10, 10, true⟩], [orderCanceled],
   [⟨"o1", "p1", 2, 10, 0, 0, 20, "Product 1", "p1.jpg", "PENDING"⟩], [], []⟩

/-- The refunded payment row. -/
def payRefunded : Payment := ⟨"o1", 23, "STRIPE", some "tx-1", "REFUNDED"⟩

/-- `dbPaid` after the refund. -/
def dbRefunded : DB :=
  ⟨[], [⟨"o1", "u1", 20, 3, 0, 0, 23, "PROCESSING"⟩], [], [payRefunded], []⟩

/-! ## General list helpers -/

theorem map_id_of_mem {α : Type} (l : List α) (f : α → α) (h : ∀ a ∈ l, f a = a) :
    l.map f = l := by
  induction l with
  | nil => rfl
  | cons x xs ih =>
    simp only [List.map_cons]
    rw [h x (List.mem_cons_self x xs), ih fun a ha => h a (List.mem_cons_of_mem _ ha)]

/-- `find?` by a key commutes with mapping a key-preserving function. -/
theorem find?_map_of_key {α : Type} (key : α → String) (f : α → α)
    (hk : ∀ a, key (f a) = key a) (l : List α) (k : String) :
    (l.map f).find? (fun a => key a == k) = (l.find? (fun a => key a == k)).map f := by
  induction l with
  | nil => rfl
  | cons x xs ih =>
    by_cases hx : (key x == k) = true
    · have hfx : (key (f x) == k) = true := by rw [hk]; exact hx
      rw [List.map_cons,
        List.find?_cons_of_pos (p := fun a => key a == k) _ hfx,
        List.find?_cons_of_pos (p := fun a => key a == k) _ hx]
      simp
    · have hfx : ¬ (key (f x) == k) = true := by rw [hk]; exact hx
      rw [List.map_cons,
        List.find?_cons_of_neg (p := fun a => key a == k) _ hfx,
        List.find?_cons_of_neg (p := fun a => key a == k) _ hx]
      exact ih

/-- In a list with pairwise-distinct keys, any member whose key matches is
the element `find?` returns. -/
theorem find?_eq_of_nodup_key {α : Type} (key : α → String) (l : List α)
    (hnd : (l.map key).Nodup) (a : α) (ha : a ∈ l) (k : String)
    (hk : (key a == k) = true) :
    l.find? (fun x => key x == k) = some a := by
  have hsome : (l.find? (fun x => key x == k)).isSome := by
    rw [List.find?_isSome]
    exact ⟨a, ha, hk⟩
  obtain ⟨b, hb⟩ := Option.isSome_iff_exists.mp hsome
  have hbmem : b ∈ l := List.mem_of_find?_eq_some hb
  have hbk : (key b == k) = true := List.find?_some (p := fun x => key x == k) hb
  have : b = a := by
    apply List.inj_on_of_nodup_map hnd hbmem ha
    rw [beq_iff_eq] at hk hbk
    rw [hbk, hk]
  rw [hb, this]

theorem find?_pred {α : Type} (l : List α) (pr : α → Bool) (a : α)
    (h : l.find? pr = some a) : pr a = true :=
  List.find?_some h

theorem find?_mem {α : Type} (l : List α) (pr : α → Bool) (a : α)
    (h : l.find? pr = some a) : a ∈ l :=
  List.mem_of_find?_eq_some h


/-! ## Stock-ledger lemmas (base) -/

theorem reserveCond_iff (pid : String) (qty : ℚ) (p : Product) :
    reserveCond pid qty p = true ↔ p.id = pid ∧ qty ≤ p.stock := by
  simp [reserveCond]

/-- The conditional decrement never touches the other tables. -/
theorem reserveStock_tables (db : DB) (pid : String) (qty : ℚ) :
    (reserveStock db pid qty).1.orders = db.orders ∧
    (reserveStock db pid qty).1.orderItems = db.orderItems ∧
    (reserveStock db pid qty).1.payments = db.payments ∧
    (reserveStock db pid qty).1.addresses = db.addresses :=
  ⟨rfl, rfl, rfl, rfl⟩

/-- The conditional decrement preserves the sequence of product keys. -/
theorem reserveStock_id_map (db : DB) (pid : String) (qty : ℚ) :
    (reserveStock db pid qty).1.products.map (fun p => p.id) =
      db.products.map (fun p => p.id) := by
  show (db.products.map _).map _ = _
  rw [List.map_map]
  apply List.map_congr_left
  intro p _
  by_cases h : reserveCond pid qty p = true <;> simp [h]

/-- A zero updated-row count means nothing changed. -/
theorem reserveStock_count_zero (db : DB) (pid : String) (qty : ℚ)
    (h : (reserveStock db pid qty).2 = 0) : (reserveStock db pid qty).1 = db := by
  have hnil : db.products.filter (reserveCond pid qty) = [] :=
    List.length_eq_zero.mp h
  have hall : ∀ p ∈ db.products, ¬ reserveCond pid qty p = true :=
    List.filter_eq_nil_iff.mp hnil
  show { db with products := _ } = db
  have : db.products.map (fun p =>
      if reserveCond pid qty p then { p with stock := p.stock - qty } else p) =
      db.products :=
    map_id_of_mem _ _ (fun p hp => if_neg (hall p hp))
  rw [this]

/-- The conditional decrement preserves non-negativity of every stock. -/
theorem reserveStock_nonneg (db : DB) (pid : String) (qty : ℚ)
    (h : stocksNonneg db) : stocksNonneg (reserveStock db pid qty).1 := by
  intro p hp
  simp only [reserveStock, List.mem_map] at hp
  obtain ⟨q, hq, hqe⟩ := hp
  by_cases hc : reserveCond pid qty q = true
  · rw [if_pos hc] at hqe
    have hle : qty ≤ q.stock := ((reserveCond_iff pid qty q).mp hc).2
    rw [← hqe]
    simpa using hle
  · rw [if_neg hc] at hqe
    rw [← hqe]
    exact h q hq

/-- Every row after a conditional decrement is either an untouched
original row or an original row that satisfied `stock ≥ qty` decremented
by exactly `qty`. -/
theorem reserveStock_row_cases (db : DB) (pid : String) (qty : ℚ) (p' : Product)
    (hp' : p' ∈ (reserveStock db pid qty).1.products) :
    p' ∈ db.products ∨
      ∃ p ∈ db.products, p.id = pid ∧ qty ≤ p.stock ∧
        p' = { p with stock := p.stock - qty } := by
  simp only [reserveStock, List.mem_map] at hp'
  obtain ⟨q, hq, hqe⟩ := hp'
  by_cases hc : reserveCond pid qty q = true
  · rw [if_pos hc] at hqe
    obtain ⟨hid, hle⟩ := (reserveCond_iff pid qty q).mp hc
    exact Or.inr ⟨q, hq, hid, hle, hqe.symm⟩
  · rw [if_neg hc] at hqe
    exact Or.inl (hqe ▸ hq)

/-- A positive updated-row count pins down (under unique keys) the row
that was decremented: the unique row with this id, which satisfied
`stock ≥ qty`. -/
theorem reserveStock_count_pos (db : DB) (pid : String) (qty : ℚ)
    (hnd : productIdsNodup db) (h : (reserveStock db pid qty).2 ≠ 0) :
    ∃ p, findProduct db pid = some p ∧ qty ≤ p.stock ∧
      findProduct (reserveStock db pid qty).1 pid =
        some { p with stock := p.stock - qty } := by
  have hne : db.products.filter (reserveCond pid qty) ≠ [] := by
    intro hc
    exact h (by simp [reserveStock, hc])
  obtain ⟨p, hpmem, hpc⟩ :
      ∃ p ∈ db.products, reserveCond pid qty p = true := by
    rcases hx : db.products.filter (reserveCond pid qty) with _ | ⟨p, rest⟩
    · exact absurd hx hne
    · exact ⟨p, List.mem_of_mem_filter (hx ▸ List.mem_cons_self p rest),
        List.of_mem_filter (hx ▸ List.mem_cons_self p rest)⟩
  obtain ⟨hid, hle⟩ := (reserveCond_iff pid qty p).mp hpc
  have hfind : findProduct db pid = some p :=
    find?_eq_of_nodup_key (fun x : Product => x.id) db.products hnd p hpmem pid
      (by rw [beq_iff_eq]; exact hid)
  refine ⟨p, hfind, hle, ?_⟩
  have hmap : findProduct (reserveStock db pid qty).1 pid =
      (findProduct db pid).map (fun x =>
        if reserveCond pid qty x then { x with stock := x.stock - qty } else x) :=
    find?_map_of_key (fun x : Product => x.id)
      (fun x => if reserveCond pid qty x then { x with stock := x.stock - qty } else x)
      (fun x => by by_cases hc : reserveCond pid qty x = true <;> simp [hc])
      db.products pid
  rw [hmap, hfind]
  simp [hpc]

/-- If the key is different, a conditional decrement does not affect the
lookup. -/
theorem reserveStock_find_other (db : DB) (pid : String) (qty : ℚ)
    (pid' : String) (hne : pid' ≠ pid) :
    findProduct (reserveStock db pid qty).1 pid' = findProduct db pid' := by
  have hmap : findProduct (reserveStock db pid qty).1 pid' =
      (findProduct db pid').map (fun x =>
        if reserveCond pid qty x then { x with stock := x.stock - qty } else x) :=
    find?_map_of_key (fun x : Product => x.id)
      (fun x => if reserveCond pid qty x then { x with stock := x.stock - qty } else x)
      (fun x => by by_cases hc : reserveCond pid qty x = true <;> simp [hc])
      db.products pid'
  rw [hmap]
  rcases hf : findProduct db pid' with _ | p
  · rfl
  · have hp : (p.id == pid') = true :=
      find?_pred db.products (fun x => x.id == pid') p hf
    rw [beq_iff_eq] at hp
    have hc : reserveCond pid qty p = false := by
      rw [Bool.eq_false_iff]
      intro hc
      exact hne (hp ▸ ((reserveCond_iff pid qty p).mp hc).1)
    simp [hc]

/-! ## Reservation-loop lemmas -/

theorem orderedQty_cons (it : OrderItemData) (rest : List OrderItemData) (pid : String) :
    orderedQty (it :: rest) pid =
      (if it.productId = pid then it.quantity else 0) + orderedQty rest pid := by
  by_cases h : it.productId = pid <;>
    simp [orderedQty, List.filter_cons, h]

theorem itemsQty_cons (it : OrderItem) (rest : List OrderItem) (pid : String) :
    itemsQty (it :: rest) pid =
      (if it.productId = pid then it.quantity else 0) + itemsQty rest pid := by
  by_cases h : it.productId = pid <;>
    simp [itemsQty, List.filter_cons, h]

/-- Every failure of the reservation loop is the 409 conflict error. -/
theorem reserveAll_error_eq (data : List OrderItemData) :
    ∀ (db : DB) (e : AppError), reserveAll db data = .error e → e = conflictError := by
  induction data with
  | nil => intro db e h; simp [reserveAll] at h
  | cons it rest ih =>
    intro db e h
    simp only [reserveAll] at h
    by_cases hz : (reserveStock db it.productId it.quantity).2 = 0
    · rw [if_pos hz] at h
      cases h
      rfl
    · rw [if_neg hz] at h
      exact ih _ e h

/-- A successful reservation loop touches only the products table. -/
theorem reserveAll_tables (data : List OrderItemData) :
    ∀ (db db' : DB), reserveAll db data = .ok db' →
      db'.orders = db.orders ∧ db'.orderItems = db.orderItems ∧
      db'.payments = db.payments ∧ db'.addresses = db.addresses := by
  induction data with
  | nil =>
    intro db db' h
    cases h
    exact ⟨rfl, rfl, rfl, rfl⟩
  | cons it rest ih =>
    intro db db' h
    simp only [reserveAll] at h
    by_cases hz : (reserveStock db it.productId it.quantity).2 = 0
    · rw [if_pos hz] at h; cases h
    · rw [if_neg hz] at h
      obtain ⟨h1, h2, h3, h4⟩ := ih _ _ h
      obtain ⟨g1, g2, g3, g4⟩ := reserveStock_tables db it.productId it.quantity
      exact ⟨h1.trans g1, h2.trans g2, h3.trans g3, h4.trans g4⟩

/-- A successful reservation loop keeps every stock non-negative. -/
theorem reserveAll_nonneg (data : List OrderItemData) :
    ∀ (db db' : DB), stocksNonneg db → reserveAll db data = .ok db' →
      stocksNonneg db' := by
  induction data with
  | nil => intro db db' hnn h; cases h; exact hnn
  | cons it rest ih =>
    intro db db' hnn h
    simp only [reserveAll] at h
    by_cases hz : (reserveStock db it.productId it.quantity).2 = 0
    · rw [if_pos hz] at h; cases h
    · rw [if_neg hz] at h
      exact ih _ _ (reserveStock_nonneg db it.productId it.quantity hnn) h

/-- A successful reservation loop preserves the sequence of product keys. -/
theorem reserveAll_id_map (data : List OrderItemData) :
    ∀ (db db' : DB), reserveAll db data = .ok db' →
      db'.products.map (fun p => p.id) = db.products.map (fun p => p.id) := by
  induction data with
  | nil => intro db db' h; cases h; rfl
  | cons it rest ih =>
    intro db db' h
    simp only [reserveAll] at h
    by_cases hz : (reserveStock db it.productId it.quantity).2 = 0
    · rw [if_pos hz] at h; cases h
    · rw [if_neg hz] at h
      exact (ih _ _ h).trans (reserveStock_id_map db it.productId it.quantity)

/-- A successful reservation loop decrements each product by exactly the
total quantity the lines order for it. -/
theorem reserveAll_find (data : List OrderItemData) :
    ∀ (db db' : DB), productIdsNodup db → reserveAll db data = .ok db' →
      ∀ pid, findProduct db' pid = (findProduct db pid).map
        (fun p => { p with stock := p.stock - orderedQty data pid }) := by
  induction data with
  | nil =>
    intro db db' _ h pid
    cases h
    rcases hf : findProduct db pid with _ | p
    · rfl
    · obtain ⟨a, b, c, d, e, f⟩ := p
      simp [orderedQty]
  | cons it rest ih =>
    intro db db' hnd h pid
    simp only [reserveAll] at h
    by_cases hz : (reserveStock db it.productId it.quantity).2 = 0
    · rw [if_pos hz] at h; cases h
    · rw [if_neg hz] at h
      have hnd1 : productIdsNodup (reserveStock db it.productId it.quantity).1 := by
        show (List.map _ _).Nodup
        rw [reserveStock_id_map db it.productId it.quantity]
        exact hnd
      have hih := ih _ _ hnd1 h pid
      by_cases hpid : it.productId = pid
      · subst hpid
        obtain ⟨p, hfind, hle, hfind1⟩ :=
          reserveStock_count_pos db it.productId it.quantity hnd hz
        rw [hih, hfind1, hfind, orderedQty_cons, if_pos rfl]
        obtain ⟨a, b, c, d, e, f⟩ := p
        simp [sub_sub]
      · rw [hih, reserveStock_find_other db it.productId it.quantity pid
          (fun hc => hpid hc.symm), orderedQty_cons, if_neg hpid]
        rcases hf : findProduct db pid with _ | p
        · rfl
        · obtain ⟨a, b, c, d, e, f⟩ := p
          simp [sub_sub]

/-! ## Release-loop lemmas -/

/-- A successful unconditional increment: the row existed, it alone grew
by `qty`, and nothing else changed. -/
theorem incrementStock_find (db : DB) (pid : String) (qty : ℚ) (db1 : DB)
    (h : incrementStock db pid qty = some db1) :
    (∃ p, findProduct db pid = some p ∧
      findProduct db1 pid = some { p with stock := p.stock + qty }) ∧
    (∀ pid', pid' ≠ pid → findProduct db1 pid' = findProduct db pid') ∧
    db1.orders = db.orders ∧ db1.orderItems = db.orderItems ∧
    db1.payments = db.payments ∧ db1.addresses = db.addresses ∧
    db1.products.map (fun p => p.id) = db.products.map (fun p => p.id) := by
  unfold incrementStock at h
  rcases hf : findProduct db pid with _ | p
  · rw [hf] at h; cases h
  · rw [hf] at h
    cases h
    have hid : ∀ x : Product,
        ((if x.id == pid then { x with stock := x.stock + qty } else x) : Product).id
          = x.id := by
      intro x
      by_cases hc : (x.id == pid) = true <;> simp [hc]
    have hmap : ∀ k, findProduct { db with products := db.products.map (fun x =>
          if x.id == pid then { x with stock := x.stock + qty } else x) } k =
        (findProduct db k).map (fun x =>
          if x.id == pid then { x with stock := x.stock + qty } else x) :=
      fun k => find?_map_of_key (fun x : Product => x.id)
        (fun x => if x.id == pid then { x with stock := x.stock + qty } else x)
        hid db.products k
    refine ⟨⟨p, rfl, ?_⟩, ?_, rfl, rfl, rfl, rfl, ?_⟩
    · rw [hmap pid, hf]
      have hp : (p.id == pid) = true :=
        find?_pred db.products (fun x => x.id == pid) p hf
      have hpos : (if (p.id == pid) = true then
          ({ p with stock := p.stock + qty } : Product) else p)
          = { p with stock := p.stock + qty } := if_pos hp
      simp only [Option.map_some']
      rw [hpos]
    · intro pid' hne
      rw [hmap pid']
      rcases hf' : findProduct db pid' with _ | x
      · rfl
      · have hx : (x.id == pid') = true :=
          find?_pred db.products (fun y => y.id == pid') x hf'
        rw [beq_iff_eq] at hx
        have hcp : ¬ ((x.id == pid) = true) := by
          rw [beq_iff_eq, hx]
          exact hne
        have hneg : (if (x.id == pid) = true then
            ({ x with stock := x.stock + qty } : Product) else x) = x := if_neg hcp
        simp only [Option.map_some']
        rw [hneg]
    · show (List.map _ _).map _ = _
      rw [List.map_map]
      apply List.map_congr_left
      intro x _
      exact hid x

/-- A successful release loop increments each product by exactly the
total quantity the order items held for it, and touches nothing else. -/
theorem releaseAll_some (items : List OrderItem) :
    ∀ (db db1 : DB), productIdsNodup db → releaseAll db items = some db1 →
      (∀ pid, findProduct db1 pid = (findProduct db pid).map
        (fun p => { p with stock := p.stock + itemsQty items pid })) ∧
      db1.orders = db.orders ∧ db1.orderItems = db.orderItems ∧
      db1.payments = db.payments ∧ db1.addresses = db.addresses := by
  induction items with
  | nil =>
    intro db db1 _ h
    cases h
    refine ⟨fun pid => ?_, rfl, rfl, rfl, rfl⟩
    rcases hf : findProduct db pid with _ | p
    · rfl
    · obtain ⟨a, b, c, d, e, f⟩ := p
      simp [itemsQty]
  | cons it rest ih =>
    intro db db1 hnd h
    simp only [releaseAll] at h
    rcases hi : incrementStock db it.productId it.quantity with _ | dbm
    · rw [hi] at h; cases h
    · rw [hi] at h
      obtain ⟨⟨p, hfind, hfind1⟩, hother, ho, hoi, hp, ha, hids⟩ :=
        incrementStock_find db it.productId it.quantity dbm hi
      have hndm : productIdsNodup dbm := by
        show (List.map _ _).Nodup
        rw [hids]
        exact hnd
      obtain ⟨hihfind, ho2, hoi2, hp2, ha2⟩ := ih dbm db1 hndm h
      refine ⟨fun pid => ?_, ho2.trans ho, hoi2.trans hoi, hp2.trans hp, ha2.trans ha⟩
      by_cases hpid : it.productId = pid
      · subst hpid
        rw [hihfind it.productId, hfind1, hfind, itemsQty_cons, if_pos rfl]
        obtain ⟨a, b, c, d, e, f⟩ := p
        simp [add_assoc]
      · rw [hihfind pid, hother pid (fun hc => hpid hc.symm), itemsQty_cons, if_neg hpid]
        rcases hf : findProduct db pid with _ | x
        · rfl
        · obtain ⟨a, b, c, d, e, f⟩ := x
          simp

/-! ## `createOrder` unfolding lemmas -/

/-- When an error leaves `createOrder`, the observable database is the
input one: the transaction discarded all writes. -/
theorem runCreateOrder_error (db : DB) (reqUser : Option UserCtx)
    (body : CreateOrderBody) (oid : String) (e : AppError)
    (h : createOrder db reqUser body oid = .error e) :
    runCreateOrder db reqUser body oid = db := by
  unfold runCreateOrder
  rw [h]

/-- With the caller resolved, validation passed and pricing done,
`createOrder` is exactly its transaction. -/
theorem createOrder_eq_tx (db : DB) (reqUser : Option UserCtx)
    (body : CreateOrderBody) (oid : String) (totals : Totals)
    (hu : truthy (firstTruthy (reqUser.map (fun u => u.id)) body.userId) = true)
    (hv : validateCreateOrderInput body = .ok ())
    (hc : computeOrderTotals db body.items = .ok totals) :
    createOrder db reqUser body oid =
      createOrderTx db ((firstTruthy (reqUser.map (fun u => u.id)) body.userId).getD "")
        totals body.shippingAddress body.paymentMethod body.paymentProvider oid := by
  simp [createOrder, hu, hv, hc]

/-- A failing reservation loop fails the whole transaction with the same
error. -/
theorem createOrderTx_error (db : DB) (userId : String) (totals : Totals)
    (sa : Option AddressInput) (pm pp : Option String) (oid : String) (e : AppError)
    (hr : reserveAll db totals.orderItemsData = .error e) :
    createOrderTx db userId totals sa pm pp oid = .error e := by
  unfold createOrderTx
  rw [hr]

/-- A successful reservation loop commits the transaction. -/
theorem createOrderTx_isOk (db : DB) (userId : String) (totals : Totals)
    (sa : Option AddressInput) (pm pp : Option String) (oid : String) (db1 : DB)
    (hr : reserveAll db totals.orderItemsData = .ok db1) :
    ∃ r, createOrderTx db userId totals sa pm pp oid = .ok r := by
  unfold createOrderTx
  rw [hr]
  rcases sa with _ | a <;>
    by_cases hpay : (truthy pm || truthy pp) = true <;>
      simp [hpay]

/-- What a committed transaction contains: the created order row with the
computed totals and status `PENDING`, the snapshot items attached to it,
and the reserved products table. -/
theorem createOrderTx_ok_inv (db : DB) (userId : String) (totals : Totals)
    (sa : Option AddressInput) (pm pp : Option String) (oid : String)
    (db1 db2 : DB) (order2 : Order)
    (hr : reserveAll db totals.orderItemsData = .ok db1)
    (h : createOrderTx db userId totals sa pm pp oid = .ok (db2, order2)) :
    order2 = ⟨oid, userId, totals.subtotal, totals.tax, totals.discount,
              totals.shippingFee, totals.total, "PENDING"⟩ ∧
    db2.products = db1.products ∧
    db2.orders = db1.orders ++ [order2] ∧
    db2.orderItems = db1.orderItems ++ totals.orderItemsData.map (mkOrderItem oid) := by
  unfold createOrderTx at h
  rw [hr] at h
  rcases sa with _ | a <;>
    by_cases hpay : (truthy pm || truthy pp) = true <;>
      simp only [hpay, if_true, if_false, Except.ok.injEq, Prod.mk.injEq] at h <;>
      obtain ⟨hdb, hord⟩ := h <;>
      subst hdb <;> subst hord <;>
      exact ⟨rfl, rfl, rfl, rfl⟩

/-- Full success inversion for `createOrder`. -/
theorem createOrder_ok_inv (db : DB) (reqUser : Option UserCtx)
    (body : CreateOrderBody) (oid : String) (db2 : DB) (order2 : Order)
    (h : createOrder db reqUser body oid = .ok (db2, order2)) :
    truthy (firstTruthy (reqUser.map (fun u => u.id)) body.userId) = true ∧
    validateCreateOrderInput body = .ok () ∧
    ∃ totals db1, computeOrderTotals db body.items = .ok totals ∧
      reserveAll db totals.orderItemsData = .ok db1 ∧
      order2 = ⟨oid, (firstTruthy (reqUser.map (fun u => u.id)) body.userId).getD "",
                totals.subtotal, totals.tax, totals.discount, totals.shippingFee,
                totals.total, "PENDING"⟩ ∧
      db2.products = db1.products ∧
      db2.orders = db1.orders ++ [order2] ∧
      db2.orderItems = db1.orderItems ++ totals.orderItemsData.map (mkOrderItem oid) := by
  simp only [createOrder] at h
  split at h
  · cases h
  · rename_i hu0
    have hu : truthy (firstTruthy (reqUser.map (fun u => u.id)) body.userId) = true := by
      simpa using hu0
    split at h
    · cases h
    · rename_i val hval0
      have hval : validateCreateOrderInput body = .ok () := by
        cases val
        exact hval0
      split at h
      · cases h
      · rename_i totals hcomp
        rcases hres : reserveAll db totals.orderItemsData with e | db1
        · rw [createOrderTx_error db _ totals _ _ _ oid e hres] at h
          cases h
        · obtain ⟨ho, hp, hord, hit⟩ :=
            createOrderTx_ok_inv db _ totals _ _ _ oid db1 db2 order2 hres h
          exact ⟨hu, hval, totals, db1, hcomp, hres, ho, hp, hord, hit⟩

/-! ## Validation lemmas -/

/-- Validation succeeds only when every item has a truthy product id and a
finite positive quantity. -/
theorem validateItems_ok (items : List RequestItem)
    (h : validateItems items = .ok ()) :
    ∀ it ∈ items, it.productId ≠ "" ∧ ∃ q, it.quantity = .num q ∧ 0 < q := by
  induction items with
  | nil => intro it hit; cases hit
  | cons x xs ih =>
    simp only [validateItems] at h
    split at h
    · cases h
    · rename_i hpid
      split at h
      · rename_i q hq
        split at h
        · cases h
        · rename_i hqle
          intro it hit
          rcases List.mem_cons.mp hit with rfl | hmem
          · exact ⟨by simpa using hpid, q, hq, lt_of_not_le hqle⟩
          · exact ih h it hmem
      · cases h

/-- Every item-validation failure carries status 400. -/
theorem validateItems_error_code (items : List RequestItem) :
    ∀ e, validateItems items = .error e → e.statusCode = 400 := by
  induction items with
  | nil => intro e h; cases h
  | cons x xs ih =>
    intro e h
    simp only [validateItems] at h
    split at h
    · cases h; rfl
    · split at h
      · split at h
        · cases h; rfl
        · exact ih e h
      · cases h; rfl

/-- Every address-validation failure carries status 400. -/
theorem validateAddress_error_code (a : AddressInput) :
    ∀ e, validateAddress a = .error e → e.statusCode = 400 := by
  intro e h
  unfold validateAddress at h
  repeat' split at h
  all_goals cases h <;> rfl

/-- Every `validateCreateOrderInput` failure carries status 400. -/
theorem validate_error_code (body : CreateOrderBody) :
    ∀ e, validateCreateOrderInput body = .error e → e.statusCode = 400 := by
  intro e h
  unfold validateCreateOrderInput at h
  split at h
  · cases h; rfl
  · split at h
    · cases h
      exact validateItems_error_code body.items _ (by assumption)
    · split at h
      · rename_i a ha
        exact validateAddress_error_code a e h
      · cases h

/-- A successful validation implies the item list validated and was
non-empty. -/
theorem validate_ok_inv (body : CreateOrderBody)
    (h : validateCreateOrderInput body = .ok ()) :
    validateItems body.items = .ok () ∧ body.items ≠ [] := by
  unfold validateCreateOrderInput at h
  split at h
  · cases h
  · rename_i hne
    split at h
    · cases h
    · rename_i val hval
      cases val
      exact ⟨hval, by simpa [List.isEmpty_iff] using hne⟩

/-- An empty item list is rejected up front. -/
theorem validate_empty (body : CreateOrderBody) (h : body.items = []) :
    validateCreateOrderInput body =
      .error ⟨"Order must contain at least one item", 400⟩ := by
  simp [validateCreateOrderInput, h]

/-- An item whose coerced quantity is non-finite or non-positive makes
validation fail. -/
theorem validateItems_bad (items : List RequestItem) :
    ∀ it ∈ items, (∀ q, it.quantity = .num q → q ≤ 0) →
      ∃ e, validateItems items = .error e := by
  induction items with
  | nil => intro it hit; cases hit
  | cons x xs ih =>
    intro it hit hbad
    rcases List.mem_cons.mp hit with rfl | hmem
    · simp only [validateItems]
      split
      · exact ⟨_, rfl⟩
      · split
        · rename_i q hq
          split
          · exact ⟨_, rfl⟩
          · rename_i hqle
            exact absurd (hbad q hq) hqle
        · exact ⟨_, rfl⟩
    · simp only [validateItems]
      split
      · exact ⟨_, rfl⟩
      · split
        · split
          · exact ⟨_, rfl⟩
          · exact ih it hmem hbad
        · exact ⟨_, rfl⟩

/-- A validation error propagates out of `createOrder` unchanged (the
caller-resolution check runs first). -/
theorem createOrder_validate_error (db : DB) (reqUser : Option UserCtx)
    (body : CreateOrderBody) (oid : String) (e : AppError)
    (hu : truthy (firstTruthy (reqUser.map (fun u => u.id)) body.userId) = true)
    (hv : validateCreateOrderInput body = .error e) :
    createOrder db reqUser body oid = .error e := by
  simp [createOrder, hu, hv]

/-! ## Pricing lemmas -/

/-- The running subtotal is exactly the sum of the line subtotals, and
every line subtotal is its unit price times its quantity. -/
theorem buildLines_subtotal (db : DB) (items : List RequestItem) :
    ∀ (acc : ℚ) (data : List OrderItemData) (s : ℚ),
      buildLines db items acc = .ok (data, s) →
      s = acc + (data.map (fun i => i.subtotal)).sum ∧
      ∀ i ∈ data, i.subtotal = i.unitPrice * i.quantity := by
  induction items with
  | nil =>
    intro acc data s h
    cases h
    simp
  | cons it rest ih =>
    intro acc data s h
    simp only [buildLines] at h
    split at h
    · cases h
    · rename_i product hprod
      split at h
      · cases h
      · split at h
        · rename_i qty hq
          split at h
          · cases h
          · split at h
            · cases h
            · split at h
              · cases h
              · rename_i lines s2 hrec
                cases h
                obtain ⟨hs2, hall⟩ := ih _ _ _ hrec
                constructor
                · rw [hs2]
                  simp only [List.map_cons, List.sum_cons]
                  ring
                · intro i hi
                  rcases List.mem_cons.mp hi with rfl | hmem
                  · rfl
                  · exact hall i hmem
        · cases h

/-- What a successful pricing run guarantees about the returned totals. -/
theorem computeOrderTotals_ok_inv (db : DB) (items : List RequestItem)
    (totals : Totals) (h : computeOrderTotals db items = .ok totals) :
    totals.subtotal = (totals.orderItemsData.map (fun i => i.subtotal)).sum ∧
    (∀ i ∈ totals.orderItemsData, i.subtotal = i.unitPrice * i.quantity) ∧
    totals.tax = totals.subtotal * TAX_RATE ∧
    totals.shippingFee = BASE_SHIPPING_FEE ∧
    totals.discount = DEFAULT_DISCOUNT ∧
    totals.total = totals.subtotal + totals.tax + totals.shippingFee -
      totals.discount := by
  unfold computeOrderTotals at h
  split at h
  · cases h
  · rename_i data subtotal hbl
    cases h
    obtain ⟨hs, hall⟩ := buildLines_subtotal db items 0 data subtotal hbl
    refine ⟨?_, hall, rfl, rfl, rfl, rfl⟩
    simpa using hs

/-- The error a pricing run produces does not depend on the accumulator. -/
theorem buildLines_error_acc (db : DB) (items : List RequestItem) :
    ∀ (acc acc' : ℚ) (e : AppError), buildLines db items acc = .error e →
      buildLines db items acc' = .error e := by
  induction items with
  | nil => intro acc acc' e h; cases h
  | cons it rest ih =>
    intro acc acc' e h
    simp only [buildLines] at h ⊢
    split at h
    · exact h
    · rename_i product hprod
      split at h
      · rename_i hact
        rw [if_pos hact]
        exact h
      · rename_i hact
        rw [if_neg hact]
        split at h
        · rename_i qty hq
          split at h
          · rename_i hle
            rw [if_pos hle]
            exact h
          · rename_i hle
            rw [if_neg hle]
            split at h
            · rename_i hover
              rw [if_pos hover]
              exact h
            · rename_i hover
              rw [if_neg hover]
              split at h
              · rename_i e2 hrec
                rw [ih _ (acc' + product.price * qty) e2 hrec]
                cases h
                rfl
              · rename_i lines s2 hrec
                cases h
        · exact h

/-- A line that passes every check just accumulates and recurses: an
error from the remaining lines survives it. -/
theorem buildLines_cons_fine (db : DB) (j : RequestItem) (rest : List RequestItem)
    (hfine : lineFine db j) (e : AppError)
    (h : ∀ acc2, buildLines db rest acc2 = .error e) :
    ∀ acc, buildLines db (j :: rest) acc = .error e := by
  obtain ⟨p, q, hp, hact, hq, hqpos, hqle⟩ := hfine
  intro acc
  simp only [buildLines, hp, hq, hact]
  rw [if_neg (by simp), if_neg (not_le.mpr hqpos), if_neg (not_lt.mpr hqle),
    h (acc + p.price * q)]

/-- A missing product fails the run naming the missing id. -/
theorem buildLines_head_notfound (db : DB) (it : RequestItem)
    (post : List RequestItem) (hp : findProduct db it.productId = none)
    (acc : ℚ) :
    buildLines db (it :: post) acc =
      .error ⟨"Product not found: " ++ it.productId, 404⟩ := by
  simp [buildLines, hp]

/-- An inactive product fails the run naming the product. -/
theorem buildLines_head_inactive (db : DB) (it : RequestItem)
    (post : List RequestItem) (p : Product)
    (hp : findProduct db it.productId = some p) (hact : p.isActive = false)
    (acc : ℚ) :
    buildLines db (it :: post) acc =
      .error ⟨"Product inactive: " ++ p.name, 400⟩ := by
  simp [buildLines, hp, hact]

/-- A quantity above current stock fails the run naming the product (and
only the product). -/
theorem buildLines_head_insufficient (db : DB) (it : RequestItem)
    (post : List RequestItem) (p : Product) (q : ℚ)
    (hp : findProduct db it.productId = some p) (hact : p.isActive = true)
    (hq : it.quantity = .num q) (hqpos : 0 < q) (hover : p.stock < q)
    (acc : ℚ) :
    buildLines db (it :: post) acc =
      .error ⟨"Not enough stock for product: " ++ p.name, 400⟩ := by
  simp only [buildLines, hp, hq, hact]
  rw [if_neg (by simp), if_neg (not_le.mpr hqpos), if_pos hover]

/-- An error of the remaining lines survives a prefix of fully-valid
lines. -/
theorem buildLines_skip_fine (db : DB) (pre : List RequestItem)
    (hfine : ∀ j ∈ pre, lineFine db j) (rest : List RequestItem) (e : AppError)
    (h : ∀ acc2, buildLines db rest acc2 = .error e) :
    ∀ acc, buildLines db (pre ++ rest) acc = .error e := by
  induction pre with
  | nil => intro acc; exact h acc
  | cons j pre' ih =>
    intro acc
    have hrec : ∀ acc2, buildLines db (pre' ++ rest) acc2 = .error e :=
      ih (fun x hx => hfine x (List.mem_cons_of_mem _ hx))
    exact buildLines_cons_fine db j (pre' ++ rest)
      (hfine j (List.mem_cons_self _ _)) e hrec acc

/-- Pricing fails exactly when the line walk fails, with the same error. -/
theorem computeOrderTotals_error_iff (db : DB) (items : List RequestItem)
    (e : AppError) :
    computeOrderTotals db items = .error e ↔ buildLines db items 0 = .error e := by
  constructor
  · intro h
    unfold computeOrderTotals at h
    split at h
    · cases h
      assumption
    · cases h
  · intro h
    unfold computeOrderTotals
    rw [h]

/-! ## Row-update lookup lemmas -/

/-- Updating one order's status moves the `findUnique` result along. -/
theorem findOrder_set_status (orders : List Order) (oid status : String)
    (ord : Order) (h : orders.find? (fun o => o.id == oid) = some ord) :
    (setOrderRowStatus orders oid status).find? (fun o => o.id == oid) =
      some { ord with status := status } := by
  have hid : ∀ o : Order,
      ((if o.id == oid then { o with status := status } else o) : Order).id = o.id := by
    intro o
    by_cases hc : (o.id == oid) = true <;> simp [hc]
  have hmap := find?_map_of_key (fun o : Order => o.id)
    (fun o => if o.id == oid then { o with status := status } else o) hid orders oid
  unfold setOrderRowStatus
  rw [hmap, h]
  have hp : (ord.id == oid) = true := find?_pred orders _ ord h
  have hpos : (if (ord.id == oid) = true then
      ({ ord with status := status } : Order) else ord) =
      { ord with status := status } := if_pos hp
  simp only [Option.map_some']
  rw [hpos]

/-- Updating one payment's status moves the `findUnique` result along. -/
theorem findPayment_set_status (payments : List Payment) (oid status : String)
    (pay : Payment) (h : payments.find? (fun p => p.orderId == oid) = some pay) :
    (payments.map (fun p =>
        if p.orderId == oid then { p with status := status } else p)).find?
      (fun p => p.orderId == oid) = some { pay with status := status } := by
  have hid : ∀ p : Payment,
      ((if p.orderId == oid then { p with status := status } else p) : Payment).orderId
        = p.orderId := by
    intro p
    by_cases hc : (p.orderId == oid) = true <;> simp [hc]
  have hmap := find?_map_of_key (fun p : Payment => p.orderId)
    (fun p => if p.orderId == oid then { p with status := status } else p)
    hid payments oid
  rw [hmap, h]
  have hp : (pay.orderId == oid) = true := find?_pred payments _ pay h
  have hpos : (if (pay.orderId == oid) = true then
      ({ pay with status := status } : Payment) else pay) =
      { pay with status := status } := if_pos hp
  simp only [Option.map_some']
  rw [hpos]

/-- A failed cancellation leaves the observable database untouched. -/
theorem runCancelMyOrder_error (db : DB) (reqUser : Option UserCtx)
    (orderId : String) (e : AppError)
    (h : cancelMyOrder db reqUser orderId = .error e) :
    runCancelMyOrder db reqUser orderId = db := by
  unfold runCancelMyOrder
  rw [h]

/-- A failed refund leaves the observable database untouched. -/
theorem runRefundPayment_error (db : DB) (reqUser : Option UserCtx)
    (orderId : String) (e : AppError)
    (h : refundPayment db reqUser orderId = .error e) :
    runRefundPayment db reqUser orderId = db := by
  unfold runRefundPayment
  rw [h]

/-- A failed payment creation leaves the observable database untouched. -/
theorem runCreatePayment_error (db : DB) (reqUser : Option UserCtx)
    (orderId : String) (provider method transactionId : Option String)
    (e : AppError)
    (h : createPayment db reqUser orderId provider method transactionId = .error e) :
    runCreatePayment db reqUser orderId provider method transactionId = db := by
  unfold runCreatePayment
  rw [h]

/-- A failed payment creation (second variant) leaves the observable
database untouched. -/
theorem runCreatePaymentV2_error (db : DB) (reqUser : Option UserCtx)
    (orderId : String) (provider method transactionId : Option String)
    (e : AppError)
    (h : createPaymentV2 db reqUser orderId provider method transactionId = .error e) :
    runCreatePaymentV2 db reqUser orderId provider method transactionId = db := by
  unfold runCreatePaymentV2
  rw [h]

/-! ## Claim theorems -/

/-- C4 (code bug): the administrative status update screens against the
controller's `allowedStatuses` list, which disagrees with the declared
`OrderStatus` enum: the declared member `PROCESSING` is rejected with
`Invalid order status` (400), while `PAID` — removed from the enum by the
migration — passes the screen and is then rejected by the datastore.  The
claim (backed by the migration and the repository's own test expecting a
`PROCESSING` update to succeed) says exactly the declared members are
accepted. -/
theorem updateOrderStatus_enum_bug :
    updateOrderStatus dbStatus (some userAdmin) "o1" "PROCESSING" =
      .error ⟨"Invalid order status", 400⟩ ∧
    "PROCESSING" ∈ orderStatusMembers ∧
    "PAID" ∈ allowedStatuses ∧
    "PAID" ∉ orderStatusMembers ∧
    updateOrderStatus dbStatus (some userAdmin) "o1" "PAID" =
      .error invalidEnumError :=
  ⟨rfl, by decide, by decide, by decide, rfl⟩

/-- C5 counterexample: a request with no authenticated caller but a
`userId` supplied in the body creates an order for that user — refuting
"an unauthenticated request can never create an order". -/
theorem createOrder_unauth_guest_succeeds :
    createOrder dbOne none bodyGuest "o1" = .ok (dbGuestAfter, orderGuest) := by
  norm_num [createOrder, createOrderTx, validateCreateOrderInput, validateItems,
    computeOrderTotals, buildLines, findProduct, reserveAll, reserveStock,
    reserveCond, mkOrderItem, truthy, firstTruthy, dbOne, bodyGuest,
    dbGuestAfter, orderGuest, TAX_RATE, BASE_SHIPPING_FEE, DEFAULT_DISCOUNT,
    List.find?, List.filter,
    show ("u1" = "") = False from by simp,
    show ("p1" = "") = False from by simp]

/-- C5 (amended): `createOrder` fails with Unauthorized (401), before any
write, exactly when neither the authenticated identity nor `body.userId`
is truthy; a body-supplied `userId` alone satisfies the check, so an
unauthenticated request carrying one can create an order. -/
theorem createOrder_auth_resolution (db : DB) (reqUser : Option UserCtx)
    (body : CreateOrderBody) (oid : String)
    (h : truthy (firstTruthy (reqUser.map (fun u => u.id)) body.userId) = false) :
    createOrder db reqUser body oid = .error ⟨"Unauthorized", 401⟩ ∧
    runCreateOrder db reqUser body oid = db := by
  have h1 : createOrder db reqUser body oid = .error ⟨"Unauthorized", 401⟩ := by
    simp [createOrder, h]
  exact ⟨h1, runCreateOrder_error _ _ _ _ _ h1⟩

/-- C5 witness: a fully anonymous request (no user, no body `userId`) is
rejected with 401 and writes nothing. -/
theorem createOrder_auth_resolution_witness :
    truthy (firstTruthy ((none : Option UserCtx).map (fun u => u.id))
      bodyTwo.userId) = false ∧
    createOrder dbOne none bodyTwo "o1" = .error ⟨"Unauthorized", 401⟩ ∧
    runCreateOrder dbOne none bodyTwo "o1" = dbOne :=
  ⟨by decide,
   (createOrder_auth_resolution dbOne none bodyTwo "o1" (by decide)).1,
   (createOrder_auth_resolution dbOne none bodyTwo "o1" (by decide)).2⟩

/-- C8: refunds are admin-only and legal exactly from status `PAID`: on
success the payment moves to `REFUNDED` and the order rows are untouched;
any other current status (including an already-refunded payment on a
second call) fails with "Only paid payments can be refunded" and changes
nothing. -/
theorem refundPayment_spec (db : DB) (reqUser : Option UserCtx) (orderId : String) :
    (∀ db' p', refundPayment db reqUser orderId = .ok (db', p') →
      isAdminOf reqUser = true ∧
      ∃ p, findPayment db orderId = some p ∧ p.status = "PAID" ∧
        p' = { p with status := "REFUNDED" } ∧
        findPayment db' orderId = some p' ∧
        db'.orders = db.orders ∧ db'.products = db.products ∧
        db'.orderItems = db.orderItems ∧ db'.addresses = db.addresses)
    ∧ (isAdminOf reqUser = false →
        refundPayment db reqUser orderId = .error ⟨"Forbidden", 403⟩)
    ∧ (∀ p, isAdminOf reqUser = true → findPayment db orderId = some p →
        p.status ≠ "PAID" →
        refundPayment db reqUser orderId =
          .error ⟨"Only paid payments can be refunded", 400⟩)
    ∧ (∀ e, refundPayment db reqUser orderId = .error e →
        runRefundPayment db reqUser orderId = db)
    ∧ (∀ db' p' u2, refundPayment db reqUser orderId = .ok (db', p') →
        isAdminOf u2 = true →
        refundPayment db' u2 orderId =
          .error ⟨"Only paid payments can be refunded", 400⟩) := by
  have hA : ∀ db' p', refundPayment db reqUser orderId = .ok (db', p') →
      isAdminOf reqUser = true ∧
      ∃ p, findPayment db orderId = some p ∧ p.status = "PAID" ∧
        p' = { p with status := "REFUNDED" } ∧
        findPayment db' orderId = some p' ∧
        db'.orders = db.orders ∧ db'.products = db.products ∧
        db'.orderItems = db.orderItems ∧ db'.addresses = db.addresses := by
    intro db' p' h
    unfold refundPayment at h
    split at h
    · cases h
    · rename_i hadm
      split at h
      · cases h
      · rename_i payment hpay
        split at h
        · cases h
        · rename_i hst
          cases h
          refine ⟨by simpa using hadm, payment, hpay, by simpa using hst,
            rfl, ?_, rfl, rfl, rfl, rfl⟩
          exact findPayment_set_status db.payments orderId "REFUNDED" payment hpay
  have hC : ∀ p, isAdminOf reqUser = true → findPayment db orderId = some p →
      p.status ≠ "PAID" →
      refundPayment db reqUser orderId =
        .error ⟨"Only paid payments can be refunded", 400⟩ := by
    intro p hadm hpay hst
    have hb : (p.status == "PAID") = false := beq_eq_false_iff_ne.mpr hst
    simp [refundPayment, hadm, hpay, hb]
  refine ⟨hA, ?_, hC, ?_, ?_⟩
  · intro hadm
    simp [refundPayment, hadm]
  · intro e h
    exact runRefundPayment_error db reqUser orderId e h
  · intro db' p' u2 h hadm2
    obtain ⟨hadm, p, hpay, hpaid, hp', hfind', _⟩ := hA db' p' h
    have hb : (p'.status == "PAID") = false := by simp [hp']
    simp [refundPayment, hadm2, hfind', hb]

/-- C8 witness: refunding the `PAID` payment as the admin succeeds and
yields `REFUNDED` with the order untouched; a second refund call on the
result is rejected. -/
theorem refundPayment_spec_witness :
    refundPayment dbPaid (some userAdmin) "o1" = .ok (dbRefunded, payRefunded) ∧
    refundPayment dbRefunded (some userAdmin) "o1" =
      .error ⟨"Only paid payments can be refunded", 400⟩ := by
  have hsucc : refundPayment dbPaid (some userAdmin) "o1" =
      .ok (dbRefunded, payRefunded) := rfl
  exact ⟨hsucc,
    (refundPayment_spec dbPaid (some userAdmin) "o1").2.2.2.2
      dbRefunded payRefunded (some userAdmin) hsucc (by decide)⟩

/-- C9: at most one payment per order — with a payment already attached,
`createPayment` (both controller variants) can only fail and writes
nothing; an otherwise-authorized attempt fails precisely with "Payment
already exists"; and any success implies no payment existed and appends
exactly the one new row. -/
theorem createPayment_unique_per_order (db : DB) (reqUser : Option UserCtx)
    (orderId : String) (provider method transactionId : Option String) :
    (∀ p0, findPayment db orderId = some p0 →
      (createPayment db reqUser orderId provider method transactionId).isOk = false ∧
      runCreatePayment db reqUser orderId provider method transactionId = db ∧
      (createPaymentV2 db reqUser orderId provider method transactionId).isOk = false ∧
      runCreatePaymentV2 db reqUser orderId provider method transactionId = db)
    ∧ (∀ p0 u ord, findPayment db orderId = some p0 → reqUser = some u →
        u.id ≠ "" → findOrder db orderId = some ord →
        (ord.userId = u.id ∨ u.isAdmin = true) →
        createPayment db reqUser orderId provider method transactionId =
          .error ⟨"Payment already exists", 400⟩ ∧
        (ord.status ≠ "CANCELED" →
          createPaymentV2 db reqUser orderId provider method transactionId =
            .error ⟨"Payment already exists", 400⟩))
    ∧ (∀ db' p',
        createPayment db reqUser orderId provider method transactionId = .ok (db', p') →
        findPayment db orderId = none ∧ db'.payments = db.payments ++ [p'])
    ∧ (∀ db' p',
        createPaymentV2 db reqUser orderId provider method transactionId = .ok (db', p') →
        findPayment db orderId = none ∧ db'.payments = db.payments ++ [p']) := by
  have hInv1 : ∀ db' p',
      createPayment db reqUser orderId provider method transactionId = .ok (db', p') →
      findPayment db orderId = none ∧ db'.payments = db.payments ++ [p'] := by
    intro db' p' h
    unfold createPayment at h
    split at h
    · cases h
    · split at h
      · cases h
      · split at h
        · cases h
        · split at h
          · cases h
          · split at h
            · cases h
            · rename_i hnone
              cases h
              exact ⟨hnone, rfl⟩
  have hInv2 : ∀ db' p',
      createPaymentV2 db reqUser orderId provider method transactionId = .ok (db', p') →
      findPayment db orderId = none ∧ db'.payments = db.payments ++ [p'] := by
    intro db' p' h
    unfold createPaymentV2 at h
    split at h
    · cases h
    · split at h
      · cases h
      · split at h
        · cases h
        · split at h
          · cases h
          · split at h
            · cases h
            · split at h
              · cases h
              · rename_i hnone
                cases h
                exact ⟨hnone, rfl⟩
  refine ⟨?_, ?_, hInv1, hInv2⟩
  · intro p0 hp0
    have h1 : (createPayment db reqUser orderId provider method transactionId).isOk
        = false := by
      rcases hres : createPayment db reqUser orderId provider method transactionId
        with e | r
      · rfl
      · obtain ⟨hnone, _⟩ := hInv1 r.1 r.2 hres
        rw [hp0] at hnone
        cases hnone
    have h2 : (createPaymentV2 db reqUser orderId provider method transactionId).isOk
        = false := by
      rcases hres : createPaymentV2 db reqUser orderId provider method transactionId
        with e | r
      · rfl
      · obtain ⟨hnone, _⟩ := hInv2 r.1 r.2 hres
        rw [hp0] at hnone
        cases hnone
    refine ⟨h1, ?_, h2, ?_⟩
    · rcases hres : createPayment db reqUser orderId provider method transactionId
        with e | r
      · exact runCreatePayment_error db reqUser orderId provider method transactionId e hres
      · rw [hres] at h1
        cases h1
    · rcases hres : createPaymentV2 db reqUser orderId provider method transactionId
        with e | r
      · exact runCreatePaymentV2_error db reqUser orderId provider method transactionId e hres
      · rw [hres] at h2
        cases h2
  · intro p0 u ord hp0 hru hu hord hauth
    subst hru
    have hbe : (u.id == "") = false := beq_eq_false_iff_ne.mpr hu
    have hcond : (decide ((ord.userId == u.id) = false) && decide (u.isAdmin = false))
        = false := by
      rcases hauth with hown | hadm
      · simp [hown]
      · simp [hadm]
    constructor
    · simp [createPayment, hbe, hord, hcond, hp0]
      intro hne
      rcases hauth with hown | hadm
      · exact absurd hown hne
      · exact hadm
    · intro hcanc
      have hbc : (ord.status == "CANCELED") = false := beq_eq_false_iff_ne.mpr hcanc
      simp [createPaymentV2, hbe, hord, hcond, hbc, hp0]
      intro hne
      rcases hauth with hown | hadm
      · exact absurd hown hne
      · exact hadm

/-- C9 witness: with a payment already on the order, the owner's second
creation attempt fails with "Payment already exists" in both variants and
writes nothing. -/
theorem createPayment_unique_per_order_witness :
    createPayment dbHasPayment (some userOwner) "o1" (some "STRIPE") none none =
      .error ⟨"Payment already exists", 400⟩ ∧
    createPaymentV2 dbHasPayment (some userOwner) "o1" (some "STRIPE") none none =
      .error ⟨"Payment already exists", 400⟩ ∧
    runCreatePayment dbHasPayment (some userOwner) "o1" (some "STRIPE") none none =
      dbHasPayment := by
  have hp0 : findPayment dbHasPayment "o1" =
      some ⟨"o1", 23, "STRIPE", none, "PENDING"⟩ := rfl
  have hord : findOrder dbHasPayment "o1" =
      some ⟨"o1", "u1", 20, 3, 0, 0, 23, "PENDING"⟩ := rfl
  have hmain := (createPayment_unique_per_order dbHasPayment (some userOwner) "o1"
    (some "STRIPE") none none).2.1 ⟨"o1", 23, "STRIPE", none, "PENDING"⟩ userOwner
    ⟨"o1", "u1", 20, 3, 0, 0, 23, "PENDING"⟩ hp0 rfl (by decide) hord (Or.inl rfl)
  have hrun := ((createPayment_unique_per_order dbHasPayment (some userOwner) "o1"
    (some "STRIPE") none none).1 ⟨"o1", 23, "STRIPE", none, "PENDING"⟩ hp0).2.1
  exact ⟨hmain.1, hmain.2 (by decide), hrun⟩

/-- C1: order creation is stock-safe.  Each per-line reservation is the
conditional decrement "subtract the quantity only where stock ≥ quantity"
(rows are otherwise untouched); a failed condition surfaces the whole
call as the 409 conflict; every failure leaves the observable database
exactly as it was (full rollback, no partial decrements); and a committed
order leaves every stock non-negative, decremented by exactly the ordered
quantities. -/
theorem createOrder_stock_safety (db : DB) (reqUser : Option UserCtx)
    (body : CreateOrderBody) (oid : String)
    (hnd : productIdsNodup db) (hnn : stocksNonneg db) :
    (∀ pid qty p', p' ∈ (reserveStock db pid qty).1.products →
      p' ∈ db.products ∨ ∃ p ∈ db.products, p.id = pid ∧ qty ≤ p.stock ∧
        p' = { p with stock := p.stock - qty })
    ∧ (∀ db' order, createOrder db reqUser body oid = .ok (db', order) →
        stocksNonneg db')
    ∧ (∀ e, createOrder db reqUser body oid = .error e →
        runCreateOrder db reqUser body oid = db)
    ∧ (∀ totals,
        truthy (firstTruthy (reqUser.map (fun u => u.id)) body.userId) = true →
        validateCreateOrderInput body = .ok () →
        computeOrderTotals db body.items = .ok totals →
        ((∀ e, reserveAll db totals.orderItemsData = .error e →
            createOrder db reqUser body oid = .error conflictError)
         ∧ (∀ db1, reserveAll db totals.orderItemsData = .ok db1 →
            ∃ db' order, createOrder db reqUser body oid = .ok (db', order) ∧
              ∀ pid, findProduct db' pid = (findProduct db pid).map
                (fun p =>
                  { p with stock :=
                      p.stock - orderedQty totals.orderItemsData pid })))) := by
  refine ⟨?_, ?_, ?_, ?_⟩
  · intro pid qty p' hp'
    exact reserveStock_row_cases db pid qty p' hp'
  · intro db' order h
    obtain ⟨hu, hv, totals, db1, hc, hr, ho, hp, hord, hit⟩ :=
      createOrder_ok_inv db reqUser body oid db' order h
    intro p hmem
    rw [hp] at hmem
    exact reserveAll_nonneg totals.orderItemsData db db1 hnn hr p hmem
  · intro e h
    exact runCreateOrder_error db reqUser body oid e h
  · intro totals hu hv hc
    constructor
    · intro e hr
      have he : e = conflictError := reserveAll_error_eq totals.orderItemsData db e hr
      rw [createOrder_eq_tx db reqUser body oid totals hu hv hc,
        createOrderTx_error db _ totals _ _ _ oid e hr, he]
    · intro db1 hr
      obtain ⟨r, hok⟩ := createOrderTx_isOk db
        ((firstTruthy (reqUser.map (fun u => u.id)) body.userId).getD "")
        totals body.shippingAddress body.paymentMethod body.paymentProvider oid db1 hr
      refine ⟨r.1, r.2, ?_, ?_⟩
      · rw [createOrder_eq_tx db reqUser body oid totals hu hv hc, hok]
      · obtain ⟨_, hp, _, _⟩ := createOrderTx_ok_inv db
          ((firstTruthy (reqUser.map (fun u => u.id)) body.userId).getD "")
          totals body.shippingAddress body.paymentMethod body.paymentProvider oid
          db1 r.1 r.2 hr hok
        intro pid
        show r.1.products.find? (fun p => p.id == pid) = _
        rw [hp]
        exact reserveAll_find totals.orderItemsData db db1 hnd hr pid

/-- C1 witness: the concrete scenario-A order (stock 10, quantity 2)
instantiates the stock-safety theorem. -/
theorem createOrder_stock_safety_witness :
    productIdsNodup dbOne ∧ stocksNonneg dbOne ∧
    ((∀ pid qty p', p' ∈ (reserveStock dbOne pid qty).1.products →
      p' ∈ dbOne.products ∨ ∃ p ∈ dbOne.products, p.id = pid ∧ qty ≤ p.stock ∧
        p' = { p with stock := p.stock - qty })
    ∧ (∀ db' order, createOrder dbOne (some userOwner) bodyTwo "o1" = .ok (db', order) →
        stocksNonneg db')
    ∧ (∀ e, createOrder dbOne (some userOwner) bodyTwo "o1" = .error e →
        runCreateOrder dbOne (some userOwner) bodyTwo "o1" = dbOne)
    ∧ (∀ totals,
        truthy (firstTruthy ((some userOwner).map (fun u => u.id)) bodyTwo.userId) = true →
        validateCreateOrderInput bodyTwo = .ok () →
        computeOrderTotals dbOne bodyTwo.items = .ok totals →
        ((∀ e, reserveAll dbOne totals.orderItemsData = .error e →
            createOrder dbOne (some userOwner) bodyTwo "o1" = .error conflictError)
         ∧ (∀ db1, reserveAll dbOne totals.orderItemsData = .ok db1 →
            ∃ db' order, createOrder dbOne (some userOwner) bodyTwo "o1" = .ok (db', order) ∧
              ∀ pid, findProduct db' pid = (findProduct dbOne pid).map
                (fun p =>
                  { p with stock :=
                      p.stock - orderedQty totals.orderItemsData pid }))))) :=
  ⟨by norm_num [productIdsNodup, dbOne],
   by norm_num [stocksNonneg, dbOne],
   createOrder_stock_safety dbOne (some userOwner) bodyTwo "o1"
     (by norm_num [productIdsNodup, dbOne]) (by norm_num [stocksNonneg, dbOne])⟩

/-- C2: pricing is exact decimal arithmetic.  For any committed order:
each stored line subtotal is its unit price times its quantity, the
order's subtotal is exactly the sum of its items' subtotals, tax is
exactly `subtotal * 0.15`, and `total = subtotal + tax + shippingFee -
discount` with the policy fee and discount both zero. -/
theorem createOrder_pricing_exact (db : DB) (reqUser : Option UserCtx)
    (body : CreateOrderBody) (oid : String) (db' : DB) (order : Order)
    (hfresh : ∀ it ∈ db.orderItems, it.orderId ≠ oid)
    (h : createOrder db reqUser body oid = .ok (db', order)) :
    order.id = oid ∧
    order.subtotal = ((orderItemsOf db' oid).map (fun it => it.subtotal)).sum ∧
    (∀ it ∈ orderItemsOf db' oid, it.subtotal = it.unitPrice * it.quantity) ∧
    order.tax = order.subtotal * TAX_RATE ∧
    order.shippingFee = 0 ∧ order.discount = 0 ∧
    order.total = order.subtotal + order.tax + order.shippingFee - order.discount := by
  obtain ⟨hu, hv, totals, db1, hc, hr, ho, hp, hord, hit⟩ :=
    createOrder_ok_inv db reqUser body oid db' order h
  obtain ⟨hsub, hall, htax, hship, hdisc, htot⟩ :=
    computeOrderTotals_ok_inv db body.items totals hc
  obtain ⟨_, hoi1, _, _⟩ := reserveAll_tables totals.orderItemsData db db1 hr
  have hfilter : orderItemsOf db' oid = totals.orderItemsData.map (mkOrderItem oid) := by
    unfold orderItemsOf
    rw [hit, hoi1, List.filter_append]
    have h1 : db.orderItems.filter (fun it => it.orderId == oid) = [] := by
      rw [List.filter_eq_nil_iff]
      intro a ha
      simp [hfresh a ha]
    have h2 : (totals.orderItemsData.map (mkOrderItem oid)).filter
        (fun it => it.orderId == oid) = totals.orderItemsData.map (mkOrderItem oid) := by
      rw [List.filter_eq_self]
      intro a ha
      obtain ⟨i, hi, rfl⟩ := List.mem_map.mp ha
      simp [mkOrderItem]
    rw [h1, h2, List.nil_append]
  have hsum : (totals.orderItemsData.map (mkOrderItem oid)).map (fun it => it.subtotal)
      = totals.orderItemsData.map (fun i => i.subtotal) := by
    rw [List.map_map]
    rfl
  refine ⟨by rw [ho], ?_, ?_, ?_, ?_, ?_, ?_⟩
  · rw [ho, hfilter, hsum]
    exact hsub
  · intro it hit2
    rw [hfilter] at hit2
    obtain ⟨i, hi, rfl⟩ := List.mem_map.mp hit2
    exact hall i hi
  · rw [ho]
    exact htax
  · rw [ho]
    exact hship
  · rw [ho]
    exact hdisc
  · rw [ho]
    exact htot

/-- C2 witness: scenario A — price 10.00, quantity 2 — commits with
subtotal 20.00, tax 3.00, total 23.00, and the theorem's exactness facts
hold of it. -/
theorem createOrder_pricing_exact_witness :
    (∀ it ∈ dbOne.orderItems, it.orderId ≠ "o1") ∧
    createOrder dbOne (some userOwner) bodyTwo "o1" = .ok (dbOneAfter, orderA) ∧
    (orderA.id = "o1" ∧
    orderA.subtotal = ((orderItemsOf dbOneAfter "o1").map (fun it => it.subtotal)).sum ∧
    (∀ it ∈ orderItemsOf dbOneAfter "o1", it.subtotal = it.unitPrice * it.quantity) ∧
    orderA.tax = orderA.subtotal * TAX_RATE ∧
    orderA.shippingFee = 0 ∧ orderA.discount = 0 ∧
    orderA.total = orderA.subtotal + orderA.tax + orderA.shippingFee - orderA.discount) := by
  have hfresh : ∀ it ∈ dbOne.orderItems, it.orderId ≠ "o1" := by
    simp [dbOne]
  have hok : createOrder dbOne (some userOwner) bodyTwo "o1" =
      .ok (dbOneAfter, orderA) := by
    norm_num [createOrder, createOrderTx, validateCreateOrderInput, validateItems,
      computeOrderTotals, buildLines, findProduct, reserveAll, reserveStock,
      reserveCond, mkOrderItem, truthy, firstTruthy, dbOne, bodyTwo, userOwner,
      dbOneAfter, orderA, TAX_RATE, BASE_SHIPPING_FEE, DEFAULT_DISCOUNT,
      List.find?, List.filter,
      show ("u1" = "") = False from by simp,
      show ("p1" = "") = False from by simp]
  exact ⟨hfresh, hok,
    createOrder_pricing_exact dbOne (some userOwner) bodyTwo "o1" dbOneAfter orderA
      hfresh hok⟩

/-- C10: duplicate lines for one product can each pass the pricing-time
stock check while their combined quantity exceeds stock; the conditional
per-line decrement then fails on a later line, the whole call fails with
the 409 conflict, and the transaction rollback leaves the database
unchanged — the stock-never-negative invariant survives inputs the
pricing check does not catch. -/
theorem createOrder_duplicate_lines_conflict (db : DB) (reqUser : Option UserCtx)
    (body : CreateOrderBody) (oid : String) (totals : Totals) (pid : String)
    (p : Product)
    (hnd : productIdsNodup db) (hnn : stocksNonneg db)
    (hu : truthy (firstTruthy (reqUser.map (fun u => u.id)) body.userId) = true)
    (hv : validateCreateOrderInput body = .ok ())
    (hc : computeOrderTotals db body.items = .ok totals)
    (hp : findProduct db pid = some p)
    (hover : p.stock < orderedQty totals.orderItemsData pid) :
    createOrder db reqUser body oid = .error conflictError ∧
    runCreateOrder db reqUser body oid = db := by
  rcases hr : reserveAll db totals.orderItemsData with e | db1
  · have he : e = conflictError := reserveAll_error_eq totals.orderItemsData db e hr
    have h1 : createOrder db reqUser body oid = .error conflictError := by
      rw [createOrder_eq_tx db reqUser body oid totals hu hv hc,
        createOrderTx_error db _ totals _ _ _ oid e hr, he]
    exact ⟨h1, runCreateOrder_error db reqUser body oid conflictError h1⟩
  · exfalso
    have hfind := reserveAll_find totals.orderItemsData db db1 hnd hr pid
    rw [hp] at hfind
    have hnn1 : stocksNonneg db1 :=
      reserveAll_nonneg totals.orderItemsData db db1 hnn hr
    have hmem : ({ p with stock :=
        p.stock - orderedQty totals.orderItemsData pid } : Product) ∈ db1.products :=
      find?_mem db1.products (fun x => x.id == pid) _ hfind
    have h0 : (0 : ℚ) ≤ p.stock - orderedQty totals.orderItemsData pid :=
      hnn1 _ hmem
    exact absurd (sub_nonneg.mp h0) (not_le.mpr hover)

/-- C10 witness: stock 3, two lines of quantity 2 for the same product —
pricing passes per line, the second decrement loses, the call returns the
409 conflict and the database is unchanged. -/
theorem createOrder_duplicate_lines_conflict_witness :
    computeOrderTotals dbThree bodyDup.items = .ok totalsDup ∧
    (⟨"p1", "Product 1", "p1.jpg", 10, 3, true⟩ : Product).stock <
      orderedQty totalsDup.orderItemsData "p1" ∧
    createOrder dbThree (some userOwner) bodyDup "o1" = .error conflictError ∧
    runCreateOrder dbThree (some userOwner) bodyDup "o1" = dbThree := by
  have hc : computeOrderTotals dbThree bodyDup.items = .ok totalsDup := by
    norm_num [computeOrderTotals, buildLines, findProduct, dbThree, bodyDup,
      totalsDup, TAX_RATE, BASE_SHIPPING_FEE, DEFAULT_DISCOUNT, List.find?,
      show ("p1" = "") = False from by simp]
  have hover : (⟨"p1", "Product 1", "p1.jpg", 10, 3, true⟩ : Product).stock <
      orderedQty totalsDup.orderItemsData "p1" := by
    norm_num [orderedQty, totalsDup, List.filter]
  have hmain := createOrder_duplicate_lines_conflict dbThree (some userOwner)
    bodyDup "o1" totalsDup "p1" ⟨"p1", "Product 1", "p1.jpg", 10, 3, true⟩
    (by norm_num [productIdsNodup, dbThree])
    (by norm_num [stocksNonneg, dbThree])
    (by decide)
    (by norm_num [validateCreateOrderInput, validateItems, bodyDup,
      show ("p1" = "") = False from by simp])
    hc rfl hover
  exact ⟨hc, hover, hmain.1, hmain.2⟩

/-- C3: self-service cancellation succeeds only for the order's owner
while the status is exactly `PENDING`; a non-`PENDING` order fails with
"Order cannot be canceled at this stage" and changes nothing; on success
every item quantity is returned to its product's stock exactly once and
the order row flips to `CANCELED`, all inside one atomic unit. -/
theorem cancelMyOrder_spec (db : DB) (reqUser : Option UserCtx) (orderId : String)
    (hnd : productIdsNodup db) :
    (∀ db' o', cancelMyOrder db reqUser orderId = .ok (db', o') →
      ∃ u ord, reqUser = some u ∧ findOrder db orderId = some ord ∧
        ord.userId = u.id ∧ ord.status = "PENDING" ∧
        o' = { ord with status := "CANCELED" } ∧
        findOrder db' orderId = some o' ∧
        (∀ pid, findProduct db' pid = (findProduct db pid).map
          (fun p => { p with stock :=
            p.stock + itemsQty (orderItemsOf db orderId) pid })) ∧
        db'.orderItems = db.orderItems ∧ db'.payments = db.payments ∧
        db'.addresses = db.addresses)
    ∧ (∀ u ord, reqUser = some u → u.id ≠ "" →
        findOrder db orderId = some ord → ord.userId = u.id →
        ord.status ≠ "PENDING" →
        cancelMyOrder db reqUser orderId =
          .error ⟨"Order cannot be canceled at this stage", 400⟩)
    ∧ (∀ e, cancelMyOrder db reqUser orderId = .error e →
        runCancelMyOrder db reqUser orderId = db) := by
  refine ⟨?_, ?_, ?_⟩
  · intro db' o' h
    unfold cancelMyOrder at h
    split at h
    · cases h
    · rename_i u
      split at h
      · cases h
      · rename_i hid
        split at h
        · cases h
        · rename_i existing hford
          split at h
          · cases h
          · rename_i hown
            split at h
            · cases h
            · rename_i hpend
              split at h
              · cases h
              · rename_i db1 hrel
                cases h
                obtain ⟨hfind, ho1, hoi1, hp1, ha1⟩ :=
                  releaseAll_some (orderItemsOf db orderId) db db1 hnd hrel
                refine ⟨u, existing, rfl, hford, by simpa using hown,
                  by simpa using hpend, rfl, ?_, ?_, hoi1, hp1, ha1⟩
                · show (setOrderRowStatus db1.orders orderId "CANCELED").find?
                    (fun o => o.id == orderId) = _
                  rw [ho1]
                  exact findOrder_set_status db.orders orderId "CANCELED" existing hford
                · intro pid
                  exact hfind pid
  · intro u ord hru hu hford hown hpend
    subst hru
    have hbe : (u.id == "") = false := beq_eq_false_iff_ne.mpr hu
    have hbo : (ord.userId == u.id) = true := beq_iff_eq.mpr hown
    have hbp : (ord.status == "PENDING") = false := beq_eq_false_iff_ne.mpr hpend
    simp [cancelMyOrder, hbe, hford, hbo, hbp]
  · intro e h
    exact runCancelMyOrder_error db reqUser orderId e h

/-- C3 witness: scenario C — cancelling the pending scenario-A order
restores stock 8 back to 10 and flips the status; cancelling a
`PROCESSING` order is rejected with the stage error. -/
theorem cancelMyOrder_spec_witness :
    productIdsNodup dbPending ∧
    cancelMyOrder dbPending (some userOwner) "o1" = .ok (dbCanceled, orderCanceled) ∧
    (∃ u ord, (some userOwner : Option UserCtx) = some u ∧
      findOrder dbPending "o1" = some ord ∧
      ord.userId = u.id ∧ ord.status = "PENDING" ∧
      orderCanceled = { ord with status := "CANCELED" } ∧
      findOrder dbCanceled "o1" = some orderCanceled ∧
      (∀ pid, findProduct dbCanceled pid = (findProduct dbPending pid).map
        (fun p => { p with stock :=
          p.stock + itemsQty (orderItemsOf dbPending "o1") pid })) ∧
      dbCanceled.orderItems = dbPending.orderItems ∧
      dbCanceled.payments = dbPending.payments ∧
      dbCanceled.addresses = dbPending.addresses) ∧
    cancelMyOrder dbPaid (some userOwner) "o1" =
      .error ⟨"Order cannot be canceled at this stage", 400⟩ := by
  have hnd : productIdsNodup dbPending := by
    norm_num [productIdsNodup, dbPending, dbOneAfter]
  have hok : cancelMyOrder dbPending (some userOwner) "o1" =
      .ok (dbCanceled, orderCanceled) := by
    norm_num [cancelMyOrder, findOrder, orderItemsOf, releaseAll, incrementStock,
      findProduct, setOrderRowStatus, dbPending, dbOneAfter, orderA, dbCanceled,
      orderCanceled, userOwner, List.find?, List.filter,
      show ("u1" = "") = False from by simp]
  refine ⟨hnd, hok,
    (cancelMyOrder_spec dbPending (some userOwner) "o1" hnd).1 dbCanceled
      orderCanceled hok, ?_⟩
  exact (cancelMyOrder_spec dbPaid (some userOwner) "o1"
      (by norm_num [productIdsNodup, dbPaid])).2.1 userOwner
    ⟨"o1", "u1", 20, 3, 0, 0, 23, "PROCESSING"⟩ rfl (by decide) rfl rfl (by decide)

/-- C6 counterexample: the non-integral quantity 5/2 (denominator 2, so
not an integer) passes `validateCreateOrderInput` and `computeOrderTotals`
— integrality is not validated, refuting "not an integer fails with
InvalidArgument before any stock mutation". -/
theorem validate_accepts_fractional_qty :
    qHalf5.den = 2 ∧
    validateCreateOrderInput bodyFrac = .ok () ∧
    (computeOrderTotals dbOne bodyFrac.items).isOk = true := by
  have hq : qHalf5 = 5 / 2 := by
    rw [qHalf5, Rat.mk'_eq_divInt]
    norm_num [Rat.divInt_eq_div]
  refine ⟨rfl, ?_, ?_⟩
  · norm_num [validateCreateOrderInput, validateItems, bodyFrac, hq,
      show ("p1" = "") = False from by simp]
  · norm_num [computeOrderTotals, buildLines, findProduct, dbOne, bodyFrac, hq,
      Except.isOk, Except.toBool, TAX_RATE, BASE_SHIPPING_FEE, DEFAULT_DISCOUNT,
      List.find?, show ("p1" = "") = False from by simp]

/-- C6 (amended): quantities must be positive finite numbers, not
necessarily integers: an empty item list, or a zero, negative or
non-finite quantity, fails with a 400 `InvalidArgument` before the
transaction ever opens (so before any stock mutation), and a successful
validation guarantees truthy ids and finite positive quantities — but a
fractional quantity passes. -/
theorem validate_quantity_rules (db : DB) (reqUser : Option UserCtx)
    (body : CreateOrderBody) (oid : String) :
    (body.items = [] →
      validateCreateOrderInput body =
        .error ⟨"Order must contain at least one item", 400⟩)
    ∧ (validateCreateOrderInput body = .ok () →
        ∀ it ∈ body.items, it.productId ≠ "" ∧ ∃ q, it.quantity = .num q ∧ 0 < q)
    ∧ (∀ e, validateCreateOrderInput body = .error e → e.statusCode = 400)
    ∧ (∀ it ∈ body.items, (∀ q, it.quantity = .num q → q ≤ 0) →
        ∃ e, validateCreateOrderInput body = .error e ∧ e.statusCode = 400)
    ∧ (∀ e, validateCreateOrderInput body = .error e →
        truthy (firstTruthy (reqUser.map (fun u => u.id)) body.userId) = true →
        createOrder db reqUser body oid = .error e)
    ∧ (∀ e, createOrder db reqUser body oid = .error e →
        runCreateOrder db reqUser body oid = db) := by
  refine ⟨?_, ?_, ?_, ?_, ?_, ?_⟩
  · intro h
    exact validate_empty body h
  · intro h it hmem
    exact validateItems_ok body.items (validate_ok_inv body h).1 it hmem
  · intro e h
    exact validate_error_code body e h
  · intro it hmem hbad
    obtain ⟨e0, he0⟩ := validateItems_bad body.items it hmem hbad
    refine ⟨e0, ?_, validateItems_error_code body.items e0 he0⟩
    have hne : body.items ≠ [] := List.ne_nil_of_mem hmem
    simp [validateCreateOrderInput, List.isEmpty_iff, hne, he0]
  · intro e h hu
    exact createOrder_validate_error db reqUser body oid e hu h
  · intro e h
    exact runCreateOrder_error db reqUser body oid e h

/-- C6 witness: scenario D — quantity 0 is rejected with a 400 before the
transaction, and `createOrder` surfaces that error. -/
theorem validate_quantity_rules_witness :
    validateCreateOrderInput bodyZero =
      .error ⟨"Each item must have a positive quantity", 400⟩ ∧
    (⟨"Each item must have a positive quantity", 400⟩ : AppError).statusCode = 400 ∧
    createOrder dbOne (some userOwner) bodyZero "o1" =
      .error ⟨"Each item must have a positive quantity", 400⟩ := by
  have hv : validateCreateOrderInput bodyZero =
      .error ⟨"Each item must have a positive quantity", 400⟩ := by
    norm_num [validateCreateOrderInput, validateItems, bodyZero,
      show ("p1" = "") = False from by simp]
  exact ⟨hv,
    (validate_quantity_rules dbOne (some userOwner) bodyZero "o1").2.2.1 _ hv,
    (validate_quantity_rules dbOne (some userOwner) bodyZero "o1").2.2.2.2.1 _ hv
      (by decide)⟩

/-- C7 counterexample: the insufficient-stock error message is exactly
"Not enough stock for product: Widget" for a product with stock 5 — it
names the product but contains no digit, hence not the available count,
refuting "naming the product and the available count". -/
theorem insufficient_stock_message_no_count :
    computeOrderTotals dbWidget [⟨"p1", .num 7⟩] =
      .error ⟨"Not enough stock for product: Widget", 400⟩ ∧
    '5' ∉ "Not enough stock for product: Widget".data := by
  constructor
  · rw [show "Not enough stock for product: Widget" =
        "Not enough stock for product: " ++ "Widget" from rfl]
    norm_num [computeOrderTotals, buildLines, findProduct, dbWidget, List.find?]
  · decide

/-- C7 (amended): during pricing, the first failing line determines the
error — a missing product id fails with `NotFound` naming the missing id,
an inactive product fails with `InvalidState` naming the product, and a
quantity above current stock fails with `InsufficientStock` naming the
product (but not the available count). -/
theorem computeOrderTotals_error_taxonomy (db : DB) (items : List RequestItem)
    (pre : List RequestItem) (it : RequestItem) (post : List RequestItem)
    (hsplit : items = pre ++ it :: post)
    (hfine : ∀ j ∈ pre, lineFine db j) :
    (findProduct db it.productId = none →
      computeOrderTotals db items =
        .error ⟨"Product not found: " ++ it.productId, 404⟩)
    ∧ (∀ p, findProduct db it.productId = some p → p.isActive = false →
        computeOrderTotals db items =
          .error ⟨"Product inactive: " ++ p.name, 400⟩)
    ∧ (∀ p q, findProduct db it.productId = some p → p.isActive = true →
        it.quantity = .num q → 0 < q → p.stock < q →
        computeOrderTotals db items =
          .error ⟨"Not enough stock for product: " ++ p.name, 400⟩) := by
  subst hsplit
  refine ⟨?_, ?_, ?_⟩
  · intro hp
    rw [computeOrderTotals_error_iff]
    exact buildLines_skip_fine db pre hfine (it :: post) _
      (fun acc2 => buildLines_head_notfound db it post hp acc2) 0
  · intro p hp hact
    rw [computeOrderTotals_error_iff]
    exact buildLines_skip_fine db pre hfine (it :: post) _
      (fun acc2 => buildLines_head_inactive db it post p hp hact acc2) 0
  · intro p q hp hact hq hqpos hover
    rw [computeOrderTotals_error_iff]
    exact buildLines_skip_fine db pre hfine (it :: post) _
      (fun acc2 =>
        buildLines_head_insufficient db it post p q hp hact hq hqpos hover acc2) 0

/-- C7 witness: requesting 7 of a product with stock 5 fails with the
insufficient-stock error naming the product. -/
theorem computeOrderTotals_error_taxonomy_witness :
    findProduct dbWidget "p1" = some ⟨"p1", "Widget", "w.jpg", 10, 5, true⟩ ∧
    computeOrderTotals dbWidget [⟨"p1", .num 7⟩] =
      .error ⟨"Not enough stock for product: " ++ "Widget", 400⟩ := by
  refine ⟨rfl, ?_⟩
  exact (computeOrderTotals_error_taxonomy dbWidget [⟨"p1", .num 7⟩] []
      ⟨"p1", .num 7⟩ [] rfl (by intro j hj; cases hj)).2.2
    ⟨"p1", "Widget", "w.jpg", 10, 5, true⟩ 7 rfl rfl rfl (by norm_num) (by norm_num)

end HamroPasal
